import Mathlib

/-!
# Policy Authorization client of the Application Function (package `af`)

A shallow embedding of `ngc/pkg/af/af_pcf_pa_client.go`.

Conventions of the embedding

* A Go `error` is `GoError = Option String`: `none` is `nil`, `some m` is a
  non-nil error whose `Error()` text is `m` (`errors.New("")` is `some ""`).
* A Go pointer that may be `nil` is an `Option`.
* A `*http.Response` is shared between the method and its result; the
  `httpResp` field of a result holds the state of that response object when
  the method returns (so writes to `StatusCode` are visible through it).
* Calls that leave the package (`prepareRequest`, the HTTP round trip,
  `validatePAAuthToken`, `encoding/json`) are answered by a `World`; every
  such call is recorded, in order, in the `trace` of the outcome.
* Go strings are modelled by `String`; the only separator the code splits on
  is ASCII, for which splitting by bytes and by characters agree.
* Log output and the deferred `Body.Close()` are not modelled: neither
  changes a returned value.
-/

namespace AF

/-- Go `error`: `none` is nil, `some m` is an error with message `m`. -/
abbrev GoError := Option String

/-! ## `strings.Split` -/

/-- The scan of `strings.Split` for a non-empty separator, over characters.
`skip` counts the characters of a separator occurrence that are still to be
consumed, `acc` is the current part, reversed. -/
def strings.splitAux (sep : List Char) : Nat → List Char → List Char → List (List Char)
  | _, acc, [] => [acc.reverse]
  | skip + 1, acc, _ :: rest => strings.splitAux sep skip acc rest
  | 0, acc, c :: rest =>
    if sep.isPrefixOf (c :: rest) then
      acc.reverse :: strings.splitAux sep (sep.length - 1) [] rest
    else
      strings.splitAux sep 0 (c :: acc) rest

/-- Go `strings.Split(s, sep)`: `s` cut at every occurrence of `sep`, scanning
from the left; with an empty separator the string is exploded into its
characters. -/
def strings.Split (s sep : String) : List String :=
  if sep.data = [] then s.data.map (fun c => String.mk [c])
  else (strings.splitAux sep.data 0 [] s.data).map String.mk

/-- Number of positions of `s` at which `sep` occurs. -/
def occurrences (sep : List Char) : List Char → Nat
  | [] => if sep.isPrefixOf [] then 1 else 0
  | c :: rest => (if sep.isPrefixOf (c :: rest) then 1 else 0) + occurrences sep rest

/-! ## Client and responses -/

/-- The fields of `PolicyAuthAPIClient` the methods read. -/
structure PolicyAuthAPIClient where
  oAuth2Token : String
  rootURI : String
  userAgent : String
  locationPrefixURI : String
  deriving DecidableEq, Repr

/-- A `*http.Response` as the client observes it.
`Location` is the outcome of `httpResp.Location()`: an error when the header is
absent or cannot be parsed, otherwise the text `locURL.String()` of the URL.
`Body` is the outcome of `ioutil.ReadAll(httpResp.Body)`. -/
structure HttpResponse where
  StatusCode : Int
  Location : Except String String
  Body : Except String String

/-- Model of `getLocationURI`: the returned string and the response after the call (its
`StatusCode` is overwritten when the Location header cannot be read). -/
def getLocationURI (httpResp : HttpResponse) (c : PolicyAuthAPIClient) :
    String × HttpResponse :=
  let uri := c.locationPrefixURI
  match httpResp.Location with
  | .error _ => ("", { httpResp with StatusCode := 500 })
  | .ok locURL =>
    match strings.Split locURL "app-sessions" with
    | [_, r1] => (uri ++ r1, httpResp)
    | _ => (uri, httpResp)


/-! ## Types declared outside the translated file -/

/-- The Go types this file uses without declaring them: the JSON payload types of
the package and the library's `http.Request`. They are parameters of the
development. -/
structure Schema where
  AppSessionContext : Type
  AppSessionContextUpdateData : Type
  EventsSubscReqData : Type
  EventsNotification : Type
  ProblemDetails : Type
  Request : Type

variable {S : Schema}

/-- `PcfPAResponse`, with the fields the client assigns; the default is Go's zero
value. -/
structure PcfPAResponse (S : Schema) where
  httpResp : Option HttpResponse := none
  appSessCtx : Option S.AppSessionContext := none
  probDetails : Option S.ProblemDetails := none
  locationURI : String := ""

/-- `EventSubscResponse`, with the fields the client assigns; the default is Go's
zero value. -/
structure EventSubscResponse (S : Schema) where
  httpResp : Option HttpResponse := none
  eventSubscReq : Option S.EventsSubscReqData := none
  evsNotif : Option S.EventsNotification := none
  probDetails : Option S.ProblemDetails := none
  locationURI : String := ""

/-- The `interface{}` request body handed to `prepareRequest`. -/
inductive ReqBody (S : Schema) where
  | nil
  | appSessionContext (a : S.AppSessionContext)
  | ascUpdateData (u : S.AppSessionContextUpdateData)
  | eventsSubscReqData (e : S.EventsSubscReqData)

/-- The arguments of `c.cfg.prepareRequest(ctx, path, httpMethod, body,
headerParams)`; `headerParams` lists the map's entries in the order the method
assigns them (the keys are distinct). -/
structure RequestArgs (S : Schema) where
  path : String
  httpMethod : String
  body : ReqBody S
  headerParams : List (String × String)

/-- Modelled from the spec: the constant `contentTypeJSON` is declared outside the
translated file; the spec gives the JSON media type `application/json`. -/
def contentTypeJSON : String := "application/json"

/-- The answers of everything the client calls outside this file.
`unmarshalX body` is `json.Unmarshal(body, p)` for `p` pointing at a zero `X`: the
value `p` points at afterwards and the returned error. `isNull body` tells
whether `body` is the JSON literal `null`. -/
structure World (S : Schema) where
  prepareRequest : RequestArgs S → Except String S.Request
  callAPI : S.Request → Option HttpResponse × GoError
  validatePAAuthToken : PolicyAuthAPIClient → PolicyAuthAPIClient
  isNull : String → Bool
  unmarshalAppSessionContext : String → S.AppSessionContext × GoError
  unmarshalEventsSubscReqData : String → S.EventsSubscReqData × GoError
  unmarshalEventsNotification : String → S.EventsNotification × GoError
  unmarshalProblemDetails : String → S.ProblemDetails × GoError

/-- Model of `json.Unmarshal(body, &asc)` for `asc` a non-nil `*AppSessionContext`: the
JSON literal `null` sets the pointer to nil without an error; any other body is
decoded into the value `asc` points at. -/
def World.unmarshalAppSessionContextPtr (w : World S) (body : String) :
    Option S.AppSessionContext × GoError :=
  if w.isNull body then (none, none)
  else (some (w.unmarshalAppSessionContext body).1, (w.unmarshalAppSessionContext body).2)

/-- A call that leaves the file, as recorded in a trace. -/
inductive Event (S : Schema) where
  | prepareRequest (args : RequestArgs S)
  | callAPI (r : S.Request)
  | readAll
  | validatePAAuthToken

/-- What a method call produces: the two returned values, the external calls it
made (in order) and the client afterwards. -/
structure Outcome (S : Schema) (R : Type) where
  retVal : R
  err : GoError
  trace : List (Event S)
  client : PolicyAuthAPIClient

/-! ## Client construction -/

/-- `GenericCliConfig`, the PCF client section of the configuration. -/
structure GenericCliConfig where
  Protocol : String
  Hostname : String
  Port : String
  BasePath : String
  OAuth2Support : Bool

/-- The server section of the configuration (`cfg.SrvCfg`). -/
structure ServerConfig where
  Hostname : String
  CNCAEndpoint : String

/-- The AF `Config`, with the fields `NewPolicyAuthAPIClient` reads. -/
structure Config where
  CliPcfCfg : GenericCliConfig
  UserAgent : String
  SrvCfg : ServerConfig
  LocationPrefixPA : String

/-- Model of `NewPolicyAuthAPIClient`. `genHTTPClient` and `getPcfOAuth2Token` are the
answers of the two helpers it calls. -/
def NewPolicyAuthAPIClient (genHTTPClient : GenericCliConfig → GoError)
    (getPcfOAuth2Token : Except String String) (cfg : Config) :
    Except String PolicyAuthAPIClient :=
  let paCfg := cfg.CliPcfCfg
  match genHTTPClient paCfg with
  | some err => .error err
  | none =>
    let c : PolicyAuthAPIClient :=
      { oAuth2Token := ""
        rootURI := paCfg.Protocol ++ "://" ++ paCfg.Hostname ++ ":" ++ paCfg.Port ++
          paCfg.BasePath
        userAgent := cfg.UserAgent
        locationPrefixURI := "https://" ++ cfg.SrvCfg.Hostname ++
          cfg.SrvCfg.CNCAEndpoint ++ cfg.LocationPrefixPA }
    if paCfg.OAuth2Support then
      match getPcfOAuth2Token with
      | .error err => .error err
      | .ok token => .ok { c with oAuth2Token := token }
    else .ok c

/-! ## The six client methods -/

/-- The request `PostAppSessions` hands to `prepareRequest`. -/
def PostAppSessions.request (c : PolicyAuthAPIClient)
    (appSessionContext : S.AppSessionContext) : RequestArgs S :=
  { path := c.rootURI ++ "/app-sessions"
    httpMethod := "POST"
    body := .appSessionContext appSessionContext
    headerParams := [("Content-Type", contentTypeJSON), ("Accept", contentTypeJSON),
      ("Authorization", c.oAuth2Token)] }

/-- Model of `PolicyAuthAPIClient.PostAppSessions`. -/
def PostAppSessions (w : World S) (c : PolicyAuthAPIClient)
    (appSessionContext : S.AppSessionContext) : Outcome S (PcfPAResponse S) :=
  let retVal : PcfPAResponse S := {}
  let args := PostAppSessions.request c appSessionContext
  match w.prepareRequest args with
  | .error err => ⟨retVal, some err, [.prepareRequest args], c⟩
  | .ok r =>
    match w.callAPI r with
    | (httpResponse, some err) =>
      ⟨{ retVal with httpResp := httpResponse }, some err,
        [.prepareRequest args, .callAPI r], c⟩
    | (none, none) =>
      ⟨{ retVal with httpResp := none }, none, [.prepareRequest args, .callAPI r], c⟩
    | (some httpResponse, none) =>
      match httpResponse.Body with
      | .error err =>
        ⟨{ retVal with httpResp := some httpResponse }, some err,
          [.prepareRequest args, .callAPI r, .readAll], c⟩
      | .ok respBody =>
        if httpResponse.StatusCode = 201 then
          let asc := (w.unmarshalAppSessionContext respBody).1
          let err := (w.unmarshalAppSessionContext respBody).2
          let httpResponse1 : HttpResponse :=
            if err ≠ none then { httpResponse with StatusCode := 500 } else httpResponse
          let loc := getLocationURI httpResponse1 c
          ⟨{ retVal with locationURI := loc.1, httpResp := some loc.2, appSessCtx := some asc },
            err, [.prepareRequest args, .callAPI r, .readAll], c⟩
        else if httpResponse.StatusCode ∈
            ([400, 401, 403, 404, 411, 413, 415, 429, 500, 503] : List Int) then
          let refresh : List (Event S) × PolicyAuthAPIClient :=
            if httpResponse.StatusCode = 401 then
              ([.validatePAAuthToken], w.validatePAAuthToken c) else ([], c)
          let retVal1 : PcfPAResponse S := { retVal with httpResp := some httpResponse }
          let v := (w.unmarshalProblemDetails respBody).1
          match (w.unmarshalProblemDetails respBody).2 with
          | some err =>
            ⟨retVal1, some err, [.prepareRequest args, .callAPI r, .readAll] ++ refresh.1,
              refresh.2⟩
          | none =>
            ⟨{ retVal1 with probDetails := some v }, none,
              [.prepareRequest args, .callAPI r, .readAll] ++ refresh.1, refresh.2⟩
        else
          ⟨{ retVal with httpResp := some httpResponse }, some respBody,
            [.prepareRequest args, .callAPI r, .readAll], c⟩

/-- Model of `handleApSessDeleteErrResp`: the value `v` points at after the call, and the
returned error. -/
def handleApSessDeleteErrResp (w : World S) (respBody : String) :
    S.ProblemDetails × GoError :=
  match (w.unmarshalProblemDetails respBody).2 with
  | some err => ((w.unmarshalProblemDetails respBody).1, some err)
  | none => ((w.unmarshalProblemDetails respBody).1, none)

/-- The request `DeleteAppSession` hands to `prepareRequest`. -/
def DeleteAppSession.request (c : PolicyAuthAPIClient) (appSessionID : String)
    (eventSubscReq : Option S.EventsSubscReqData) : RequestArgs S :=
  { path := c.rootURI ++ "/app-sessions/" ++ appSessionID ++ "/delete"
    httpMethod := "POST"
    body := match eventSubscReq with
      | some e => .eventsSubscReqData e
      | none => .nil
    headerParams := [("Content-Type", contentTypeJSON), ("Accept", contentTypeJSON),
      ("Authorization", c.oAuth2Token)] }

/-- Model of `PolicyAuthAPIClient.DeleteAppSession`. -/
def DeleteAppSession (w : World S) (c : PolicyAuthAPIClient) (appSessionID : String)
    (eventSubscReq : Option S.EventsSubscReqData) : Outcome S (PcfPAResponse S) :=
  let retVal : PcfPAResponse S := {}
  let args := DeleteAppSession.request c appSessionID eventSubscReq
  match w.prepareRequest args with
  | .error err => ⟨retVal, some err, [.prepareRequest args], c⟩
  | .ok r =>
    match w.callAPI r with
    | (httpResponse, some err) =>
      ⟨{ retVal with httpResp := httpResponse }, some err,
        [.prepareRequest args, .callAPI r], c⟩
    | (none, none) =>
      ⟨{ retVal with httpResp := none }, none, [.prepareRequest args, .callAPI r], c⟩
    | (some httpResponse, none) =>
      match httpResponse.Body with
      | .error err =>
        ⟨{ retVal with httpResp := some httpResponse }, some err,
          [.prepareRequest args, .callAPI r, .readAll], c⟩
      | .ok respBody =>
        if httpResponse.StatusCode = 200 then
          let asc := (w.unmarshalAppSessionContextPtr respBody).1
          let err := (w.unmarshalAppSessionContextPtr respBody).2
          let httpResponse1 : HttpResponse :=
            if err ≠ none then { httpResponse with StatusCode := 500 } else httpResponse
          ⟨{ retVal with httpResp := some httpResponse1, appSessCtx := asc }, err,
            [.prepareRequest args, .callAPI r, .readAll], c⟩
        else if httpResponse.StatusCode = 204 then
          ⟨{ retVal with httpResp := some httpResponse }, none,
            [.prepareRequest args, .callAPI r, .readAll], c⟩
        else if httpResponse.StatusCode ∈
            ([400, 401, 403, 404, 411, 413, 415, 429, 500, 503] : List Int) then
          let refresh : List (Event S) × PolicyAuthAPIClient :=
            if httpResponse.StatusCode = 401 then
              ([.validatePAAuthToken], w.validatePAAuthToken c) else ([], c)
          let v := (handleApSessDeleteErrResp w respBody).1
          let err := (handleApSessDeleteErrResp w respBody).2
          ⟨{ retVal with httpResp := some httpResponse, probDetails := some v }, err,
            [.prepareRequest args, .callAPI r, .readAll] ++ refresh.1, refresh.2⟩
        else
          ⟨{ retVal with httpResp := some httpResponse }, some respBody,
            [.prepareRequest args, .callAPI r, .readAll], c⟩

/-- The request `GetAppSession` hands to `prepareRequest`. -/
def GetAppSession.request (c : PolicyAuthAPIClient) (appSessionID : String) :
    RequestArgs S :=
  { path := c.rootURI ++ "/app-sessions/" ++ appSessionID
    httpMethod := "GET"
    body := .nil
    headerParams := [("Accept", contentTypeJSON), ("Authorization", c.oAuth2Token)] }

/-- Model of `PolicyAuthAPIClient.GetAppSession`. -/
def GetAppSession (w : World S) (c : PolicyAuthAPIClient) (appSessionID : String) :
    Outcome S (PcfPAResponse S) :=
  let retVal : PcfPAResponse S := {}
  let args : RequestArgs S := GetAppSession.request c appSessionID
  match w.prepareRequest args with
  | .error err => ⟨retVal, some err, [.prepareRequest args], c⟩
  | .ok r =>
    match w.callAPI r with
    | (httpResponse, some err) =>
      ⟨{ retVal with httpResp := httpResponse }, some err,
        [.prepareRequest args, .callAPI r], c⟩
    | (none, none) =>
      ⟨{ retVal with httpResp := none }, none, [.prepareRequest args, .callAPI r], c⟩
    | (some httpResponse, none) =>
      match httpResponse.Body with
      | .error err =>
        ⟨{ retVal with httpResp := some httpResponse }, some err,
          [.prepareRequest args, .callAPI r, .readAll], c⟩
      | .ok respBody =>
        if httpResponse.StatusCode = 200 then
          let asc := (w.unmarshalAppSessionContextPtr respBody).1
          let err := (w.unmarshalAppSessionContextPtr respBody).2
          let httpResponse1 : HttpResponse :=
            if err ≠ none then { httpResponse with StatusCode := 500 } else httpResponse
          ⟨{ retVal with httpResp := some httpResponse1, appSessCtx := asc }, err,
            [.prepareRequest args, .callAPI r, .readAll], c⟩
        else if httpResponse.StatusCode ∈
            ([400, 401, 403, 404, 406, 429, 500, 503] : List Int) then
          let refresh : List (Event S) × PolicyAuthAPIClient :=
            if httpResponse.StatusCode = 401 then
              ([.validatePAAuthToken], w.validatePAAuthToken c) else ([], c)
          let v := (w.unmarshalProblemDetails respBody).1
          let retVal1 : PcfPAResponse S := { retVal with httpResp := some httpResponse }
          match (w.unmarshalProblemDetails respBody).2 with
          | some err =>
            ⟨retVal1, some err, [.prepareRequest args, .callAPI r, .readAll] ++ refresh.1,
              refresh.2⟩
          | none =>
            ⟨{ retVal1 with probDetails := some v }, none,
              [.prepareRequest args, .callAPI r, .readAll] ++ refresh.1, refresh.2⟩
        else
          ⟨{ retVal with httpResp := some httpResponse }, some respBody,
            [.prepareRequest args, .callAPI r, .readAll], c⟩

/-- The request `ModAppSession` hands to `prepareRequest`. -/
def ModAppSession.request (c : PolicyAuthAPIClient) (appSessionID : String)
    (ascUpdateData : S.AppSessionContextUpdateData) : RequestArgs S :=
  { path := c.rootURI ++ "/app-sessions/" ++ appSessionID
    httpMethod := "PATCH"
    body := .ascUpdateData ascUpdateData
    headerParams := [("Content-Type", "application/json"), ("Accept", "application/json"),
      ("Authorization", c.oAuth2Token)] }

/-- Model of `PolicyAuthAPIClient.ModAppSession`. -/
def ModAppSession (w : World S) (c : PolicyAuthAPIClient) (appSessionID : String)
    (ascUpdateData : S.AppSessionContextUpdateData) : Outcome S (PcfPAResponse S) :=
  let retVal : PcfPAResponse S := {}
  let args := ModAppSession.request c appSessionID ascUpdateData
  match w.prepareRequest args with
  | .error err => ⟨retVal, some err, [.prepareRequest args], c⟩
  | .ok r =>
    match w.callAPI r with
    | (httpResponse, some err) =>
      ⟨{ retVal with httpResp := httpResponse }, some err,
        [.prepareRequest args, .callAPI r], c⟩
    | (none, none) =>
      ⟨{ retVal with httpResp := none }, none, [.prepareRequest args, .callAPI r], c⟩
    | (some httpResponse, none) =>
      match httpResponse.Body with
      | .error err =>
        ⟨{ retVal with httpResp := some httpResponse }, some err,
          [.prepareRequest args, .callAPI r, .readAll], c⟩
      | .ok respBody =>
        if httpResponse.StatusCode = 200 then
          let asc := (w.unmarshalAppSessionContextPtr respBody).1
          let err := (w.unmarshalAppSessionContextPtr respBody).2
          let httpResponse1 : HttpResponse :=
            if err ≠ none then { httpResponse with StatusCode := 500 } else httpResponse
          ⟨{ retVal with httpResp := some httpResponse1, appSessCtx := asc }, err,
            [.prepareRequest args, .callAPI r, .readAll], c⟩
        else if httpResponse.StatusCode ∈
            ([400, 401, 403, 404, 411, 413, 415, 429, 500, 503] : List Int) then
          let refresh : List (Event S) × PolicyAuthAPIClient :=
            if httpResponse.StatusCode = 401 then
              ([.validatePAAuthToken], w.validatePAAuthToken c) else ([], c)
          let retVal1 : PcfPAResponse S := { retVal with httpResp := some httpResponse }
          let v := (w.unmarshalProblemDetails respBody).1
          match (w.unmarshalProblemDetails respBody).2 with
          | some err =>
            ⟨retVal1, some err, [.prepareRequest args, .callAPI r, .readAll] ++ refresh.1,
              refresh.2⟩
          | none =>
            ⟨{ retVal1 with probDetails := some v }, none,
              [.prepareRequest args, .callAPI r, .readAll] ++ refresh.1, refresh.2⟩
        else
          ⟨{ retVal with httpResp := some httpResponse }, some respBody,
            [.prepareRequest args, .callAPI r, .readAll], c⟩

/-- Model of `handleUpdateEventResp`; the trace holds the external calls of the handler
alone. -/
def handleUpdateEventResp (w : World S) (respBody : String) (httpResp : HttpResponse)
    (c : PolicyAuthAPIClient) : Outcome S (EventSubscResponse S) :=
  let retVal : EventSubscResponse S := {}
  if httpResp.StatusCode = 200 ∨ httpResp.StatusCode = 201 then
    let loc := getLocationURI httpResp c
    let httpResp1 := loc.2
    match (w.unmarshalEventsSubscReqData respBody).2 with
    | some err =>
      let httpResp2 : HttpResponse := { httpResp1 with StatusCode := 500 }
      ⟨{ retVal with httpResp := some httpResp2, locationURI := loc.1 }, some err, [], c⟩
    | none =>
      let eventSubscResp := (w.unmarshalEventsSubscReqData respBody).1
      let evsNotif : Option S.EventsNotification :=
        if (w.unmarshalEventsNotification respBody).2 = none then
          some (w.unmarshalEventsNotification respBody).1
        else none
      ⟨{ retVal with
          httpResp := some httpResp1
          locationURI := loc.1
          eventSubscReq := some eventSubscResp
          evsNotif := evsNotif }, none, [], c⟩
  else if httpResp.StatusCode = 204 then
    ⟨{ retVal with httpResp := some httpResp }, none, [], c⟩
  else if httpResp.StatusCode ∈
      ([400, 401, 403, 404, 411, 413, 415, 429, 500, 503] : List Int) then
    let refresh : List (Event S) × PolicyAuthAPIClient :=
      if httpResp.StatusCode = 401 then
        ([.validatePAAuthToken], w.validatePAAuthToken c) else ([], c)
    let v := (w.unmarshalProblemDetails respBody).1
    match (w.unmarshalProblemDetails respBody).2 with
    | some err => ⟨{ retVal with httpResp := some httpResp }, some err, refresh.1, refresh.2⟩
    | none =>
      ⟨{ retVal with httpResp := some httpResp, probDetails := some v }, none, refresh.1,
        refresh.2⟩
  else
    ⟨{ retVal with httpResp := some httpResp }, some respBody, [], c⟩

/-- The request `UpdateEventsSubsc` hands to `prepareRequest`. -/
def UpdateEventsSubsc.request (c : PolicyAuthAPIClient) (appSessionID : String)
    (eventSubscReq : Option S.EventsSubscReqData) : RequestArgs S :=
  { path := c.rootURI ++ "/app-sessions/" ++ appSessionID ++ "/events-subscription"
    httpMethod := "PUT"
    body := match eventSubscReq with
      | some e => .eventsSubscReqData e
      | none => .nil
    headerParams := [("Content-Type", contentTypeJSON), ("Accept", contentTypeJSON),
      ("Authorization", c.oAuth2Token)] }

/-- Model of `PolicyAuthAPIClient.UpdateEventsSubsc`. -/
def UpdateEventsSubsc (w : World S) (c : PolicyAuthAPIClient) (appSessionID : String)
    (eventSubscReq : Option S.EventsSubscReqData) : Outcome S (EventSubscResponse S) :=
  let retVal : EventSubscResponse S := {}
  let args := UpdateEventsSubsc.request c appSessionID eventSubscReq
  match w.prepareRequest args with
  | .error err => ⟨retVal, some err, [.prepareRequest args], c⟩
  | .ok r =>
    match w.callAPI r with
    | (httpResponse, some err) =>
      ⟨{ retVal with httpResp := httpResponse }, some err,
        [.prepareRequest args, .callAPI r], c⟩
    | (none, none) =>
      ⟨{ retVal with httpResp := none }, none, [.prepareRequest args, .callAPI r], c⟩
    | (some httpResponse, none) =>
      match httpResponse.Body with
      | .error err =>
        ⟨{ retVal with httpResp := some httpResponse }, some err,
          [.prepareRequest args, .callAPI r, .readAll], c⟩
      | .ok respBody =>
        let h := handleUpdateEventResp w respBody httpResponse c
        ⟨h.retVal, h.err, [.prepareRequest args, .callAPI r, .readAll] ++ h.trace, h.client⟩

/-- The request `DeleteEventsSubsc` hands to `prepareRequest`. -/
def DeleteEventsSubsc.request (c : PolicyAuthAPIClient) (appSessionID : String) :
    RequestArgs S :=
  { path := c.rootURI ++ "/app-sessions/" ++ appSessionID ++ "/events-subscription"
    httpMethod := "DELETE"
    body := .nil
    headerParams := [("Accept", contentTypeJSON), ("Authorization", c.oAuth2Token)] }

/-- Model of `PolicyAuthAPIClient.DeleteEventsSubsc`. -/
def DeleteEventsSubsc (w : World S) (c : PolicyAuthAPIClient) (appSessionID : String) :
    Outcome S (EventSubscResponse S) :=
  let retVal : EventSubscResponse S := {}
  let args : RequestArgs S := DeleteEventsSubsc.request c appSessionID
  match w.prepareRequest args with
  | .error err => ⟨retVal, some err, [.prepareRequest args], c⟩
  | .ok r =>
    match w.callAPI r with
    | (httpResponse, some err) =>
      ⟨{ retVal with httpResp := httpResponse }, some err,
        [.prepareRequest args, .callAPI r], c⟩
    | (none, none) =>
      ⟨{ retVal with httpResp := none }, none, [.prepareRequest args, .callAPI r], c⟩
    | (some httpResponse, none) =>
      match httpResponse.Body with
      | .error err =>
        ⟨{ retVal with httpResp := some httpResponse }, some err,
          [.prepareRequest args, .callAPI r, .readAll], c⟩
      | .ok respBody =>
        if httpResponse.StatusCode = 204 then
          ⟨{ retVal with httpResp := some httpResponse }, none,
            [.prepareRequest args, .callAPI r, .readAll], c⟩
        else if httpResponse.StatusCode ∈ ([400, 401, 403, 404, 429, 500, 503] : List Int) then
          let refresh : List (Event S) × PolicyAuthAPIClient :=
            if httpResponse.StatusCode = 401 then
              ([.validatePAAuthToken], w.validatePAAuthToken c) else ([], c)
          let v := (w.unmarshalProblemDetails respBody).1
          match (w.unmarshalProblemDetails respBody).2 with
          | some err =>
            ⟨{ retVal with httpResp := some httpResponse }, some err,
              [.prepareRequest args, .callAPI r, .readAll] ++ refresh.1, refresh.2⟩
          | none =>
            ⟨{ retVal with httpResp := some httpResponse, probDetails := some v }, none,
              [.prepareRequest args, .callAPI r, .readAll] ++ refresh.1, refresh.2⟩
        else
          ⟨{ retVal with httpResp := some httpResponse }, some respBody,
            [.prepareRequest args, .callAPI r, .readAll], c⟩

/-! ## A uniform view of the six methods -/

/-- One call of a client method, with its arguments. -/
inductive Call (S : Schema) where
  | PostAppSessions (appSessionContext : S.AppSessionContext)
  | GetAppSession (appSessionID : String)
  | ModAppSession (appSessionID : String) (ascUpdateData : S.AppSessionContextUpdateData)
  | DeleteAppSession (appSessionID : String) (eventSubscReq : Option S.EventsSubscReqData)
  | UpdateEventsSubsc (appSessionID : String) (eventSubscReq : Option S.EventsSubscReqData)
  | DeleteEventsSubsc (appSessionID : String)

/-- The result of a method: one of the two result types. -/
inductive OpResult (S : Schema) where
  | pa (r : PcfPAResponse S)
  | ev (r : EventSubscResponse S)

/-- The `httpResp` field of a result. -/
def OpResult.httpResp : OpResult S → Option HttpResponse
  | .pa r => r.httpResp
  | .ev r => r.httpResp

/-- The `probDetails` field of a result. -/
def OpResult.probDetails : OpResult S → Option S.ProblemDetails
  | .pa r => r.probDetails
  | .ev r => r.probDetails

/-- The `locationURI` field of a result. -/
def OpResult.locationURI : OpResult S → String
  | .pa r => r.locationURI
  | .ev r => r.locationURI

/-- No resource payload is populated: `appSessCtx` is nil, resp. `eventSubscReq` and
`evsNotif` are nil. -/
def OpResult.resourceEmpty : OpResult S → Prop
  | .pa r => r.appSessCtx = none
  | .ev r => r.eventSubscReq = none ∧ r.evsNotif = none

/-- The status code of the response held by a result, when there is one. -/
def OpResult.status (r : OpResult S) : Option Int :=
  r.httpResp.map (fun h => h.StatusCode)

/-- The request a call hands to `prepareRequest`. -/
def Call.request (c : PolicyAuthAPIClient) : Call S → RequestArgs S
  | .PostAppSessions a => AF.PostAppSessions.request c a
  | .GetAppSession id => AF.GetAppSession.request c id
  | .ModAppSession id u => AF.ModAppSession.request c id u
  | .DeleteAppSession id e => AF.DeleteAppSession.request c id e
  | .UpdateEventsSubsc id e => AF.UpdateEventsSubsc.request c id e
  | .DeleteEventsSubsc id => AF.DeleteEventsSubsc.request c id

/-- Lift an outcome to the uniform result type. -/
def Outcome.lift {R : Type} (f : R → OpResult S) (o : Outcome S R) : Outcome S (OpResult S) :=
  ⟨f o.retVal, o.err, o.trace, o.client⟩

/-- Run a call of a client method. -/
def Call.run (w : World S) (c : PolicyAuthAPIClient) : Call S → Outcome S (OpResult S)
  | .PostAppSessions a => (AF.PostAppSessions w c a).lift .pa
  | .GetAppSession id => (AF.GetAppSession w c id).lift .pa
  | .ModAppSession id u => (AF.ModAppSession w c id u).lift .pa
  | .DeleteAppSession id e => (AF.DeleteAppSession w c id e).lift .pa
  | .UpdateEventsSubsc id e => (AF.UpdateEventsSubsc w c id e).lift .ev
  | .DeleteEventsSubsc id => (AF.DeleteEventsSubsc w c id).lift .ev

/-- The statuses a method's `switch` treats as success. -/
def Call.successStatuses : Call S → List Int
  | .PostAppSessions _ => [201]
  | .GetAppSession _ => [200]
  | .ModAppSession _ _ => [200]
  | .DeleteAppSession _ _ => [200, 204]
  | .UpdateEventsSubsc _ _ => [200, 201, 204]
  | .DeleteEventsSubsc _ => [204]

/-- The statuses a method's `switch` decodes as `ProblemDetails`. -/
def Call.errorStatuses : Call S → List Int
  | .PostAppSessions _ => [400, 401, 403, 404, 411, 413, 415, 429, 500, 503]
  | .GetAppSession _ => [400, 401, 403, 404, 406, 429, 500, 503]
  | .ModAppSession _ _ => [400, 401, 403, 404, 411, 413, 415, 429, 500, 503]
  | .DeleteAppSession _ _ => [400, 401, 403, 404, 411, 413, 415, 429, 500, 503]
  | .UpdateEventsSubsc _ _ => [400, 401, 403, 404, 411, 413, 415, 429, 500, 503]
  | .DeleteEventsSubsc _ => [400, 401, 403, 404, 429, 500, 503]

/-- The PCF answered the call: the request was built, the transport returned the response
`resp` without an error, and its body was read as `body`. -/
def Received (w : World S) (c : PolicyAuthAPIClient) (call : Call S) (resp : HttpResponse)
    (body : String) : Prop :=
  ∃ r, w.prepareRequest (call.request c) = .ok r ∧ w.callAPI r = (some resp, none) ∧
    resp.Body = .ok body

/-- Number of token refreshes (`validatePAAuthToken`) in a trace. -/
def refreshCount : List (Event S) → Nat
  | [] => 0
  | .validatePAAuthToken :: t => refreshCount t + 1
  | _ :: t => refreshCount t

/-- The transport returned the response `resp` for the call, with or without an error and
whatever becomes of reading its body. -/
def Responded (w : World S) (c : PolicyAuthAPIClient) (call : Call S) (resp : HttpResponse) :
    Prop :=
  ∃ r, w.prepareRequest (call.request c) = .ok r ∧ (w.callAPI r).1 = some resp

/-- The statuses on which a method decodes the body as its resource. -/
def Call.bodyStatuses : Call S → List Int
  | .PostAppSessions _ => [201]
  | .GetAppSession _ => [200]
  | .ModAppSession _ _ => [200]
  | .DeleteAppSession _ _ => [200]
  | .UpdateEventsSubsc _ _ => [200, 201]
  | .DeleteEventsSubsc _ => []

/-- The error of the decoding a method applies to a success body: `json.Unmarshal` into
`asc` for `PostAppSessions`, into `&asc` for the other session methods, into
`&eventSubscResp` for `UpdateEventsSubsc`. -/
def Call.bodyDecodeError (w : World S) : Call S → String → GoError
  | .PostAppSessions _, body => (w.unmarshalAppSessionContext body).2
  | .GetAppSession _, body => (w.unmarshalAppSessionContextPtr body).2
  | .ModAppSession _ _, body => (w.unmarshalAppSessionContextPtr body).2
  | .DeleteAppSession _ _, body => (w.unmarshalAppSessionContextPtr body).2
  | .UpdateEventsSubsc _ _, body => (w.unmarshalEventsSubscReqData body).2
  | .DeleteEventsSubsc _, _ => none

/-- Number of transport calls (`callAPI`) in a trace. -/
def callCount : List (Event S) → Nat
  | [] => 0
  | .callAPI _ :: t => callCount t + 1
  | _ :: t => callCount t

/-! ## The inbound handler of the events subscription

A shallow embedding of `handleEventSubscResp` and `PolicyAuthEventSubsc` of
`ngc/pkg/af/af_policy_auth_event_management.go`. What the handler does to the
`http.ResponseWriter` is the list of its calls, in order; a handler that dereferences a nil
pointer (a runtime panic) yields `none`. -/

/-- The payload field of an `EventSubscResponse` handed to `json.Marshal`. -/
inductive Payload where
  | eventSubscReq
  | evsNotif
  | probDetails
  deriving DecidableEq, Repr

/-- A call the handler makes on the response writer, a `json.Marshal` of a payload field, or
a call of `logPolicyRespErr` (declared outside the translated files) with its message and
status code. -/
inductive HandlerEvent where
  | HeaderSet (key value : String)
  | Marshal (payload : Payload)
  | logPolicyRespErr (msg : String) (code : Int)
  | WriteHeader (code : Int)
  | Write (body : String)
  deriving DecidableEq, Repr

/-- The answers of `encoding/json` to the handler: `json.Marshal` of the three payload types,
and the assignment `eventSubscReq.NotifURI = uri` on the undeclared type. -/
structure Codec (S : Schema) where
  marshalEventsSubscReqData : S.EventsSubscReqData → Except String String
  marshalEventsNotification : S.EventsNotification → Except String String
  marshalProblemDetails : S.ProblemDetails → Except String String
  setNotifURI : S.EventsSubscReqData → String → S.EventsSubscReqData

/-- Model of `handleEventSubscResp`. -/
def handleEventSubscResp (k : Codec S) (eventSubscResp : EventSubscResponse S) :
    Option (List HandlerEvent) :=
  match eventSubscResp.httpResp with
  | none => none
  | some httpResp =>
    let location : List HandlerEvent :=
      if httpResp.StatusCode = 201 then [.HeaderSet "Location" eventSubscResp.locationURI]
      else []
    match eventSubscResp.eventSubscReq, eventSubscResp.evsNotif, eventSubscResp.probDetails with
    | some eventSubscReq, _, _ =>
      match k.marshalEventsSubscReqData eventSubscReq with
      | .error err =>
        some (location ++ [.Marshal .eventSubscReq,
          .logPolicyRespErr
            ("Json marshal error (eventSubsc) in PolicyAuthEventSubsc: " ++ err) 500])
      | .ok respBody =>
        some (location ++ [.Marshal .eventSubscReq, .WriteHeader httpResp.StatusCode,
          .Write respBody])
    | none, some evsNotif, _ =>
      match k.marshalEventsNotification evsNotif with
      | .error err =>
        some (location ++ [.Marshal .evsNotif,
          .logPolicyRespErr
            ("Json marshal error (evsNotif) in PolicyAuthEventSubsc: " ++ err) 500])
      | .ok respBody =>
        some (location ++ [.Marshal .evsNotif, .WriteHeader httpResp.StatusCode,
          .Write respBody])
    | none, none, some probDetails =>
      match k.marshalProblemDetails probDetails with
      | .error err =>
        some (location ++ [.Marshal .probDetails,
          .logPolicyRespErr
            ("Json marshal error (probDetails) in PolicyAuthEventSubsc: " ++ err) 500])
      | .ok respBody =>
        some (location ++ [.Marshal .probDetails, .WriteHeader httpResp.StatusCode,
          .Write respBody])
    | none, none, none => some (location ++ [.WriteHeader httpResp.StatusCode])

/-- The `*Context` the handler finds in the request context: the notification URI of its
configuration (`afCtx.cfg.CliPcfCfg.NotifURI`) and the client
(`afCtx.data.policyAuthAPIClient`, possibly nil). -/
structure Context where
  NotifURI : String
  policyAuthAPIClient : Option PolicyAuthAPIClient

/-- The inbound request as `PolicyAuthEventSubsc` reads it. `afCtx` is the value stored under
`af-ctx`: `none` when there is none (the type assertion panics), `some none` for a nil
`*Context`. `decode` is the outcome of `json.NewDecoder(r.Body).Decode(&eventSubscReq)`,
`appSessionID` the answer of `getAppSessionID(r)`. -/
structure HandlerRequest (S : Schema) where
  afCtx : Option (Option Context)
  decode : S.EventsSubscReqData × GoError
  appSessionID : String

/-- Model of `PolicyAuthEventSubsc`. -/
def PolicyAuthEventSubsc (w : World S) (k : Codec S) (r : HandlerRequest S) :
    Option (List HandlerEvent) :=
  match r.afCtx with
  | none => none
  | some none => some [.logPolicyRespErr "nil afCtx in PolicyAuthAppEventSubs" 500]
  | some (some afCtx) =>
    let contentType := HandlerEvent.HeaderSet "Content-Type" "application/json; charset=UTF-8"
    match r.decode.2 with
    | some err =>
      some [contentType,
        .logPolicyRespErr ("Json Decode error in PolicyAuthAppEventSubs: " ++ err) 400]
    | none =>
      let eventSubscReq := k.setNotifURI r.decode.1 afCtx.NotifURI
      let appSessionID := r.appSessionID
      match afCtx.policyAuthAPIClient with
      | none =>
        some [contentType,
          .logPolicyRespErr "nil policyAuthAPIClient in PolicyAuthAppEventSubs" 500]
      | some apiClient =>
        let eventSubscResp := UpdateEventsSubsc w apiClient appSessionID (some eventSubscReq)
        match eventSubscResp.err with
        | some err =>
          match eventSubscResp.retVal.httpResp with
          | some httpResp =>
            some [contentType,
              .logPolicyRespErr ("PolicyAuthAppEventSubs: " ++ err) httpResp.StatusCode]
          | none =>
            some [contentType, .logPolicyRespErr ("PolicyAuthAppEventSubs: " ++ err) 500]
        | none =>
          (handleEventSubscResp k eventSubscResp.retVal).map (fun evs => contentType :: evs)

/-- The status written to the application: the code of the first `WriteHeader`, or the code
handed to `logPolicyRespErr`, which reports the error under that status. -/
def statusWritten : List HandlerEvent → Option Int
  | [] => none
  | .WriteHeader code :: _ => some code
  | .logPolicyRespErr _ code :: _ => some code
  | _ :: t => statusWritten t

/-- The body the handler writes to the application, when it writes one. -/
def bodyWritten : List HandlerEvent → Option String
  | [] => none
  | .Write body :: _ => some body
  | _ :: t => bodyWritten t

/-! ## A concrete world, for evaluating the model -/

/-- Every payload type is the text it was decoded from; a built request is its method and
URL. -/
def exampleSchema : Schema :=
  { AppSessionContext := String
    AppSessionContextUpdateData := String
    EventsSubscReqData := String
    EventsNotification := String
    ProblemDetails := String
    Request := String × String }

/-- Toy decoder: a body decodes to itself when it starts with `tag`, and fails (leaving the
zero value) otherwise. -/
def exampleUnmarshal (tag : String) (body : String) : String × GoError :=
  if tag.data.isPrefixOf body.data then (body, none)
  else ("", some "invalid character")

/-- A world in which every request can be built, the PCF answers every request with
`answer`, a refresh installs the token `fresh`, and bodies are decoded by
`exampleUnmarshal`. -/
def exampleWorld (answer : Option HttpResponse × GoError) : World exampleSchema :=
  { prepareRequest := fun args => .ok (args.httpMethod, args.path)
    callAPI := fun _ => answer
    validatePAAuthToken := fun c => { c with oAuth2Token := "fresh" }
    isNull := fun body => body == "null"
    unmarshalAppSessionContext := exampleUnmarshal "asc"
    unmarshalEventsSubscReqData := exampleUnmarshal "evs"
    unmarshalEventsNotification := exampleUnmarshal "evsNotif"
    unmarshalProblemDetails := exampleUnmarshal "problem" }

/-- The configuration of the spec's Location example. -/
def exampleConfig : Config :=
  { CliPcfCfg :=
      { Protocol := "https", Hostname := "pcf.example", Port := "8095",
        BasePath := "/npcf-policyauthorization/v1", OAuth2Support := true }
    UserAgent := "ngc-af"
    SrvCfg := { Hostname := "af.example", CNCAEndpoint := "/af/v1" }
    LocationPrefixPA := "/policy-authorization/app-sessions" }

/-- The client `NewPolicyAuthAPIClient` builds from `exampleConfig` when the token `token`
is retrieved. -/
def exampleClient : PolicyAuthAPIClient :=
  { oAuth2Token := "token"
    rootURI := "https://pcf.example:8095/npcf-policyauthorization/v1"
    userAgent := "ngc-af"
    locationPrefixURI := "https://af.example/af/v1/policy-authorization/app-sessions" }

/-- A response with the given status, Location header text (when present) and body. -/
def exampleResponse (status : Int) (location : Option String) (body : String) :
    HttpResponse :=
  { StatusCode := status
    Location := match location with
      | some l => .ok l
      | none => .error "http: no Location header in response"
    Body := .ok body }

/-- A codec over `exampleSchema`: payloads are marshalled to themselves, and the
notification URI is appended to the subscription text. -/
def exampleCodec : Codec exampleSchema :=
  { marshalEventsSubscReqData := fun v => .ok v
    marshalEventsNotification := fun v => .ok v
    marshalProblemDetails := fun v => .ok v
    setNotifURI := fun (v : String) (uri : String) => (v ++ uri : String) }

/-- An inbound events-subscription request for the session `42`, served with
`exampleClient`. -/
def exampleHandlerRequest : HandlerRequest exampleSchema :=
  { afCtx := some (some { NotifURI := "", policyAuthAPIClient := some exampleClient })
    decode := ("evs-0", none)
    appSessionID := "42" }

end AF

/-! # Policy Authorization client of the NEF (package `ngcnef`)

A shallow embedding of `ngc/pkg/nef/nef_pcf_pa_http_client.go`, with the conventions of the
AF client above. The `goto END` of the Go methods is the early return of the model. -/

namespace NEF

open AF

variable {S : Schema}

/-- The fields of `PcfClient` the methods read. -/
structure PcfClient where
  OAuth2Token : String
  RootURI : String
  ResourceURI : String
  UserAgent : String

/-- A `*http.Response` as the NEF client observes it: `Location` and `ContentType` are the
values of `res.Header.Get("Location")` and `res.Header.Get("Content-type")` (the empty text
when the header is absent), `Body` is the outcome of `ioutil.ReadAll(res.Body)`. -/
structure Response where
  StatusCode : Int
  Location : String
  ContentType : String
  Body : Except String String

/-- `PcfPolicyResponse`, with the fields the client assigns; `ResponseCode` is a `uint16`.
The default is Go's zero value. -/
structure PcfPolicyResponse (S : Schema) where
  ResponseCode : Nat := 0
  Asc : Option S.AppSessionContext := none
  Pd : Option S.ProblemDetails := none

/-- The constant `pdContentType`. -/
def pdContentType : String := "application/problem+json"

/-- Modelled from the spec: the constant `contentType` is declared outside the translated
file; the spec gives the JSON media type `application/json`. -/
def contentType : String := "application/json"

/-- Go's conversion `uint16(n)` of an `int`. -/
def uint16 (n : Int) : Nat := (n % 65536).toNat

/-- The arguments of `prepareRequest(ctx, apiURL, method, body, headerParams)`; `body` is
`none` for a nil byte slice. -/
structure RequestArgs where
  apiURL : String
  method : String
  body : Option String
  headerParams : List (String × String)

/-- The answers of everything the NEF client calls outside this file. `unmarshalX body` is
`json.Unmarshal(body, &x)` for a zero `x`: the value of `x` afterwards and the returned
error; `zeroProblemDetails` is `ProblemDetails{}`. -/
structure World (S : Schema) where
  marshalAppSessionContext : S.AppSessionContext → Except String String
  marshalAppSessionContextUpdateData : S.AppSessionContextUpdateData → Except String String
  prepareRequest : RequestArgs → Except String S.Request
  Do : S.Request → Except String Response
  unmarshalAppSessionContext : String → S.AppSessionContext × GoError
  unmarshalProblemDetails : String → S.ProblemDetails × GoError
  zeroProblemDetails : S.ProblemDetails

/-- The three values `PolicyAuthorizationCreate` returns. -/
structure CreateResult (S : Schema) where
  appSessionID : String
  pcfPr : PcfPolicyResponse S
  err : GoError

/-- Model of `PcfClient.PolicyAuthorizationCreate`. -/
def PolicyAuthorizationCreate (w : World S) (pcf : PcfClient) (body : S.AppSessionContext) :
    CreateResult S :=
  let pcfPr : PcfPolicyResponse S := {}
  let apiURL := pcf.RootURI ++ pcf.ResourceURI
  let headerParams := [("Content-Type", contentType), ("User-Agent", pcf.UserAgent)]
  match w.marshalAppSessionContext body with
  | .error err => ⟨"", pcfPr, some err⟩
  | .ok postbody =>
    match w.prepareRequest ⟨apiURL, "POST", some postbody, headerParams⟩ with
    | .error err => ⟨"", pcfPr, some err⟩
    | .ok req =>
      match w.Do req with
      | .error err => ⟨"", pcfPr, some err⟩
      | .ok res =>
        match res.Body with
        | .error err => ⟨"", pcfPr, some err⟩
        | .ok resbody =>
          if res.StatusCode = 201 then
            let appsesid := res.Location
            let appSessionContext := (w.unmarshalAppSessionContext resbody).1
            match (w.unmarshalAppSessionContext resbody).2 with
            | some err => ⟨appsesid, pcfPr, some err⟩
            | none =>
              ⟨appsesid,
                { ResponseCode := uint16 res.StatusCode, Asc := some appSessionContext,
                  Pd := none }, none⟩
          else if res.ContentType = pdContentType then
            let problemDetails := (w.unmarshalProblemDetails resbody).1
            match (w.unmarshalProblemDetails resbody).2 with
            | some _ => ⟨"", pcfPr, none⟩
            | none =>
              ⟨"", { pcfPr with ResponseCode := uint16 res.StatusCode, Pd := some problemDetails },
                some "failed post"⟩
          else
            ⟨"", { pcfPr with ResponseCode := uint16 res.StatusCode,
                              Pd := some w.zeroProblemDetails }, some "failed post"⟩

/-- The two values `PolicyAuthorizationUpdate`, `PolicyAuthorizationDelete` and
`PolicyAuthorizationGet` return. -/
structure Result (S : Schema) where
  pcfPr : PcfPolicyResponse S
  err : GoError

/-- Model of `PcfClient.PolicyAuthorizationUpdate`. -/
def PolicyAuthorizationUpdate (w : World S) (pcf : PcfClient)
    (body : S.AppSessionContextUpdateData) (appSessionID : String) : Result S :=
  let pcfPr : PcfPolicyResponse S := {}
  let sessid := appSessionID
  let apiURL := pcf.RootURI ++ pcf.ResourceURI ++ sessid
  let headerParams :=
    [("Content-Type", "application/merge-patch+json"), ("User-Agent", pcf.UserAgent)]
  match w.marshalAppSessionContextUpdateData body with
  | .error err => ⟨pcfPr, some err⟩
  | .ok patchbody =>
    match w.prepareRequest ⟨apiURL, "PATCH", some patchbody, headerParams⟩ with
    | .error err => ⟨pcfPr, some err⟩
    | .ok req =>
      match w.Do req with
      | .error err => ⟨pcfPr, some err⟩
      | .ok res =>
        match res.Body with
        | .error err => ⟨pcfPr, some err⟩
        | .ok resbody =>
          if res.StatusCode = 200 then
            let appSessionContext := (w.unmarshalAppSessionContext resbody).1
            match (w.unmarshalAppSessionContext resbody).2 with
            | some err => ⟨pcfPr, some err⟩
            | none =>
              ⟨{ pcfPr with ResponseCode := uint16 res.StatusCode,
                            Asc := some appSessionContext }, none⟩
          else if res.ContentType = pdContentType then
            let problemDetails := (w.unmarshalProblemDetails resbody).1
            match (w.unmarshalProblemDetails resbody).2 with
            | some err => ⟨pcfPr, some err⟩
            | none =>
              ⟨{ pcfPr with ResponseCode := uint16 res.StatusCode, Pd := some problemDetails },
                some "failed patch"⟩
          else
            ⟨{ pcfPr with ResponseCode := uint16 res.StatusCode,
                          Pd := some w.zeroProblemDetails }, some "failed patch"⟩

/-- Model of `PcfClient.PolicyAuthorizationDelete`. The response body is read on status 200
only; on the other statuses `resbody` is still the nil slice, the empty text, when it is
handed to `json.Unmarshal`. -/
def PolicyAuthorizationDelete (w : World S) (pcf : PcfClient) (appSessionID : String) :
    Result S :=
  let pcfPr : PcfPolicyResponse S := {}
  let sessid := appSessionID
  let resbody : String := ""
  let apiURL := pcf.RootURI ++ pcf.ResourceURI ++ sessid ++ "/delete"
  let headerParams := [("Content-Type", contentType), ("User-Agent", pcf.UserAgent)]
  match w.prepareRequest ⟨apiURL, "POST", none, headerParams⟩ with
  | .error err => ⟨pcfPr, some err⟩
  | .ok req =>
    match w.Do req with
    | .error err => ⟨pcfPr, some err⟩
    | .ok res =>
      if res.StatusCode = 204 then
        ⟨{ pcfPr with ResponseCode := uint16 res.StatusCode }, none⟩
      else if res.StatusCode = 200 then
        match res.Body with
        | .error err => ⟨pcfPr, some err⟩
        | .ok _ => ⟨{ pcfPr with ResponseCode := uint16 res.StatusCode }, none⟩
      else if res.ContentType = pdContentType then
        let problemDetails := (w.unmarshalProblemDetails resbody).1
        match (w.unmarshalProblemDetails resbody).2 with
        | some err => ⟨pcfPr, some err⟩
        | none =>
          ⟨{ pcfPr with Pd := some problemDetails, ResponseCode := uint16 res.StatusCode },
            some "failed delete"⟩
      else
        ⟨{ pcfPr with ResponseCode := uint16 res.StatusCode }, some "failed delete"⟩

/-- Model of `PcfClient.PolicyAuthorizationGet`. -/
def PolicyAuthorizationGet (w : World S) (pcf : PcfClient) (appSessionID : String) :
    Result S :=
  let sessid := appSessionID
  let apiURL := pcf.RootURI ++ pcf.ResourceURI ++ sessid
  let pcfPr : PcfPolicyResponse S := {}
  let headerParams := [("Content-Type", contentType), ("User-Agent", pcf.UserAgent)]
  match w.prepareRequest ⟨apiURL, "GET", none, headerParams⟩ with
  | .error err => ⟨pcfPr, some err⟩
  | .ok req =>
    match w.Do req with
    | .error err => ⟨pcfPr, some err⟩
    | .ok res =>
      match res.Body with
      | .error err => ⟨pcfPr, some err⟩
      | .ok resbody =>
        if res.StatusCode = 200 then
          let appSessionContext := (w.unmarshalAppSessionContext resbody).1
          match (w.unmarshalAppSessionContext resbody).2 with
          | some err => ⟨pcfPr, some err⟩
          | none =>
            ⟨{ pcfPr with ResponseCode := uint16 res.StatusCode,
                          Asc := some appSessionContext }, none⟩
        else if res.ContentType = pdContentType then
          let problemDetails := (w.unmarshalProblemDetails resbody).1
          match (w.unmarshalProblemDetails resbody).2 with
          | some err => ⟨pcfPr, some err⟩
          | none =>
            ⟨{ pcfPr with ResponseCode := uint16 res.StatusCode, Pd := some problemDetails },
              some "failed get"⟩
        else
          ⟨{ pcfPr with ResponseCode := uint16 res.StatusCode,
                        Pd := some w.zeroProblemDetails }, some "failed get"⟩

/-- The error of the decoding `PolicyAuthorizationCreate`, `PolicyAuthorizationUpdate` and
`PolicyAuthorizationGet` apply to the body of a response: the AppSessionContext on the
status `success`, ProblemDetails on another status when the Content-Type is `pdContentType`,
no decoding otherwise. -/
def decodeError (w : World S) (success : Int) (res : Response) (resbody : String) : GoError :=
  if res.StatusCode = success then (w.unmarshalAppSessionContext resbody).2
  else if res.ContentType = pdContentType then (w.unmarshalProblemDetails resbody).2
  else none

/-- A NEF world over `exampleSchema`: bodies are marshalled to themselves, every request
can be built, the PCF answers every request with `answer`, and bodies are decoded by
`exampleUnmarshal`. -/
def exampleWorld (answer : Except String Response) : World exampleSchema :=
  { marshalAppSessionContext := fun a => .ok a
    marshalAppSessionContextUpdateData := fun u => .ok u
    prepareRequest := fun args => .ok (args.method, args.apiURL)
    Do := fun _ => answer
    unmarshalAppSessionContext := exampleUnmarshal "asc"
    unmarshalProblemDetails := exampleUnmarshal "problem"
    zeroProblemDetails := "" }

/-- A NEF client for the PCF at `pcf.example`. -/
def examplePcfClient : PcfClient :=
  { OAuth2Token := ""
    RootURI := "https://pcf.example:8095"
    ResourceURI := "/npcf-policyauthorization/v1/app-sessions/"
    UserAgent := "NEF" }

end NEF

namespace AF

variable {S : Schema}

/-! ## Lemmas on `strings.Split` -/

theorem splitAux_nil (sep acc : List Char) (k : Nat) :
    strings.splitAux sep k acc [] = [acc.reverse] := by
  cases k <;> rfl

theorem splitAux_succ (sep acc rest : List Char) (k : Nat) (c : Char) :
    strings.splitAux sep (k + 1) acc (c :: rest) = strings.splitAux sep k acc rest := rfl

theorem splitAux_zero (sep acc rest : List Char) (c : Char) :
    strings.splitAux sep 0 acc (c :: rest) =
      if sep.isPrefixOf (c :: rest) then
        acc.reverse :: strings.splitAux sep (sep.length - 1) [] rest
      else strings.splitAux sep 0 (c :: acc) rest := rfl

theorem occurrences_cons (sep rest : List Char) (c : Char) :
    occurrences sep (c :: rest) =
      (if sep.isPrefixOf (c :: rest) then 1 else 0) + occurrences sep rest := rfl

theorem isPrefixOf_self_append (sep Y : List Char) : sep.isPrefixOf (sep ++ Y) = true := by
  rw [List.isPrefixOf_iff_prefix]
  exact ⟨Y, rfl⟩

theorem splitAux_skip (sep : List Char) (pre acc rest : List Char) :
    strings.splitAux sep pre.length acc (pre ++ rest) = strings.splitAux sep 0 acc rest := by
  induction pre with
  | nil => rfl
  | cons p pre ih =>
    rw [List.length_cons, List.cons_append, splitAux_succ]
    exact ih

theorem splitAux_hit (s0 : Char) (st acc rest : List Char) :
    strings.splitAux (s0 :: st) 0 acc ((s0 :: st) ++ rest)
      = acc.reverse :: strings.splitAux (s0 :: st) 0 [] rest := by
  have hp := isPrefixOf_self_append (s0 :: st) rest
  rw [List.cons_append] at hp ⊢
  rw [splitAux_zero, if_pos hp, List.length_cons, Nat.add_sub_cancel, splitAux_skip]

theorem splitAux_miss (sep acc rest : List Char) (c : Char)
    (h : sep.isPrefixOf (c :: rest) = false) :
    strings.splitAux sep 0 acc (c :: rest) = strings.splitAux sep 0 (c :: acc) rest := by
  rw [splitAux_zero, h]
  rfl

theorem occurrences_suffix (sep X Y : List Char) :
    occurrences sep Y ≤ occurrences sep (X ++ Y) := by
  induction X with
  | nil => exact Nat.le_refl _
  | cons x X ih =>
    rw [List.cons_append, occurrences_cons]
    omega

theorem occurrences_pos (sep X Y : List Char) (hne : sep ≠ []) :
    1 ≤ occurrences sep (X ++ sep ++ Y) := by
  have h0 : 1 ≤ occurrences sep (sep ++ Y) := by
    have hp := isPrefixOf_self_append sep Y
    cases hs : sep ++ Y with
    | nil => simp [hne] at hs
    | cons y Y1 =>
      rw [hs] at hp
      rw [occurrences_cons, if_pos hp]
      omega
  have := occurrences_suffix sep X (sep ++ Y)
  rw [List.append_assoc]
  omega

theorem splitAux_none (sep : List Char) :
    ∀ (Y acc : List Char), occurrences sep Y = 0 →
      strings.splitAux sep 0 acc Y = [acc.reverse ++ Y] := by
  intro Y
  induction Y with
  | nil => intro acc _; rw [splitAux_nil, List.append_nil]
  | cons y Y ih =>
    intro acc h
    rw [occurrences_cons] at h
    have hp : sep.isPrefixOf (y :: Y) = false := by
      cases hq : sep.isPrefixOf (y :: Y) with
      | false => rfl
      | true => rw [if_pos hq] at h; omega
    rw [splitAux_miss _ _ _ _ hp, ih (y :: acc) (by omega)]
    simp

theorem splitAux_once (s0 : Char) (st B : List Char) :
    ∀ (A acc : List Char), occurrences (s0 :: st) (A ++ (s0 :: st) ++ B) = 1 →
      strings.splitAux (s0 :: st) 0 acc (A ++ (s0 :: st) ++ B) = [acc.reverse ++ A, B] := by
  intro A
  induction A with
  | nil =>
    intro acc h
    rw [List.nil_append] at h ⊢
    have hp := isPrefixOf_self_append (s0 :: st) B
    have hB : occurrences (s0 :: st) B = 0 := by
      have h1 := occurrences_suffix (s0 :: st) st B
      rw [List.cons_append] at h hp
      rw [occurrences_cons, if_pos hp] at h
      omega
    rw [splitAux_hit, splitAux_none _ B [] hB]
    simp
  | cons a A ih =>
    intro acc h
    have h1 := occurrences_pos (s0 :: st) A B (List.cons_ne_nil _ _)
    rw [List.append_assoc, List.cons_append] at h ⊢
    rw [occurrences_cons, ← List.append_assoc] at h
    have hp : (s0 :: st).isPrefixOf (a :: (A ++ ((s0 :: st) ++ B))) = false := by
      cases hq : (s0 :: st).isPrefixOf (a :: (A ++ ((s0 :: st) ++ B))) with
      | false => rfl
      | true =>
        rw [← List.append_assoc] at hq
        rw [if_pos hq] at h; omega
    have h2 : occurrences (s0 :: st) (A ++ (s0 :: st) ++ B) = 1 := by
      rw [← List.append_assoc] at hp
      rw [hp] at h
      simpa using h
    rw [splitAux_miss _ _ _ _ hp, ← List.append_assoc, ih (a :: acc) h2]
    simp

/-- A Location that holds `app-sessions` once is split into the text before and the text
after it. -/
theorem Split_once (A B : String)
    (h : occurrences "app-sessions".data (A ++ "app-sessions" ++ B).data = 1) :
    strings.Split (A ++ "app-sessions" ++ B) "app-sessions" = [A, B] := by
  have hsep : "app-sessions".data = 'a' :: "pp-sessions".data := rfl
  have hne : ¬ ("app-sessions".data = []) := by rw [hsep]; exact List.cons_ne_nil _ _
  unfold strings.Split
  rw [if_neg hne]
  rw [String.data_append, String.data_append] at h ⊢
  rw [hsep] at h ⊢
  rw [splitAux_once 'a' "pp-sessions".data B.data A.data [] h]
  rfl

/-- The model of `strings.Split` on sample inputs, with the results Go gives. -/
theorem Split_samples :
    strings.Split "https://pcf.example/.../app-sessions/42" "app-sessions"
      = ["https://pcf.example/.../", "/42"] ∧
    strings.Split "a,b,,c," "," = ["a", "b", "", "c", ""] ∧
    strings.Split "app-sessions" "app-sessions" = ["", ""] ∧
    strings.Split "" "app-sessions" = [""] ∧
    strings.Split "aXXXb" "XX" = ["a", "Xb"] ∧
    strings.Split "abc" "" = ["a", "b", "c"] := by
  decide

/-- The client `NewPolicyAuthAPIClient` builds from `exampleConfig`. -/
theorem NewPolicyAuthAPIClient_exampleConfig :
    NewPolicyAuthAPIClient (fun _ => none) (.ok "token") exampleConfig = .ok exampleClient :=
  rfl

/-! ## The Location rewriter -/

theorem getLocationURI_once (c : PolicyAuthAPIClient) (resp : HttpResponse) (A B : String)
    (hloc : resp.Location = .ok (A ++ "app-sessions" ++ B))
    (honce : occurrences "app-sessions".data (A ++ "app-sessions" ++ B).data = 1) :
    getLocationURI resp c = (c.locationPrefixURI ++ B, resp) := by
  unfold getLocationURI
  rw [hloc]
  simp only [Split_once A B honce]

theorem locationPrefixURI_ne_empty (gen : GenericCliConfig → GoError)
    (tok : Except String String) (cfg : Config) (c : PolicyAuthAPIClient)
    (hc : NewPolicyAuthAPIClient gen tok cfg = .ok c) (B : String) :
    c.locationPrefixURI ++ B ≠ "" := by
  have hpre : ∃ t : String, c.locationPrefixURI = "https://" ++ t := by
    unfold NewPolicyAuthAPIClient at hc
    simp only at hc
    split at hc
    · exact absurd hc (by simp)
    · split at hc
      · split at hc
        · exact absurd hc (by simp)
        · injection hc with hc
          subst hc
          exact ⟨cfg.SrvCfg.Hostname ++ (cfg.SrvCfg.CNCAEndpoint ++ cfg.LocationPrefixPA),
            by simp only [String.append_assoc]⟩
      · injection hc with hc
        subst hc
        exact ⟨cfg.SrvCfg.Hostname ++ (cfg.SrvCfg.CNCAEndpoint ++ cfg.LocationPrefixPA),
          by simp only [String.append_assoc]⟩
  obtain ⟨t, ht⟩ := hpre
  intro h
  have := congrArg String.length h
  rw [ht] at this
  simp [String.length_append] at this
  have h8 : "https://".length = 8 := by decide
  omega

/-- C10. `getLocationURI`: for every client and every response whose Location text `L`
holds `app-sessions` exactly once, `L = A ++ "app-sessions" ++ B`, the returned string is
the client's `locationPrefixURI` followed by `B`; and for the Location
`https://pcf.example/.../app-sessions/42` with the prefix
`https://af.example/af/v1/policy-authorization/app-sessions` (the one
`NewPolicyAuthAPIClient` builds from `exampleConfig`) it is
`https://af.example/af/v1/policy-authorization/app-sessions/42`. -/
theorem getLocationURI_rewrites (c : PolicyAuthAPIClient) (resp : HttpResponse)
    (A B : String)
    (hloc : resp.Location = .ok (A ++ "app-sessions" ++ B))
    (honce : occurrences "app-sessions".data (A ++ "app-sessions" ++ B).data = 1) :
    (getLocationURI resp c).1 = c.locationPrefixURI ++ B ∧
    (∀ (status : Int) (body : Except String String) (p : PolicyAuthAPIClient),
      p.locationPrefixURI = "https://af.example/af/v1/policy-authorization/app-sessions" →
      (getLocationURI ⟨status, .ok "https://pcf.example/.../app-sessions/42", body⟩ p).1
        = "https://af.example/af/v1/policy-authorization/app-sessions/42") ∧
    NewPolicyAuthAPIClient (fun _ => none) (.ok "token") exampleConfig = .ok exampleClient ∧
    exampleClient.locationPrefixURI
      = "https://af.example/af/v1/policy-authorization/app-sessions" := by
  refine ⟨?_, ?_, rfl, rfl⟩
  · rw [getLocationURI_once c resp A B hloc honce]
  · intro status body p hp
    have h := getLocationURI_once p ⟨status, .ok "https://pcf.example/.../app-sessions/42", body⟩
      "https://pcf.example/.../" "/42" rfl (by decide)
    rw [h, hp]
    show "https://af.example/af/v1/policy-authorization/app-sessions" ++ "/42" = _
    decide

/-- Witness of C10 on the Location `https://pcf.example/x/app-sessions/42/sub`. -/
theorem getLocationURI_rewrites_witness :
    (exampleResponse 201 (some "https://pcf.example/x/app-sessions/42/sub") "asc").Location
      = .ok ("https://pcf.example/x/" ++ "app-sessions" ++ "/42/sub") ∧
    occurrences "app-sessions".data
      ("https://pcf.example/x/" ++ "app-sessions" ++ "/42/sub").data = 1 ∧
    (getLocationURI (exampleResponse 201 (some "https://pcf.example/x/app-sessions/42/sub") "asc")
      exampleClient).1 = exampleClient.locationPrefixURI ++ "/42/sub" :=
  ⟨rfl, by decide,
    (getLocationURI_rewrites exampleClient
      (exampleResponse 201 (some "https://pcf.example/x/app-sessions/42/sub") "asc")
      "https://pcf.example/x/" "/42/sub" rfl (by decide)).1⟩

/-! ## Create session -/

/-- C1. `PostAppSessions`: for a client built by `NewPolicyAuthAPIClient`, when the PCF
answers 201 with a body that decodes as the AppSessionContext `v` and a Location
`A ++ "app-sessions" ++ B` holding `app-sessions` exactly once, the result has
`appSessCtx = v`, a non-empty `locationURI` equal to `locationPrefixURI ++ B`, a nil
`probDetails`, the reported status 201, and the returned error is nil. -/
theorem PostAppSessions_created (w : World S) (gen : GenericCliConfig → GoError)
    (tok : Except String String) (cfg : Config) (c : PolicyAuthAPIClient)
    (a v : S.AppSessionContext) (resp : HttpResponse) (body A B : String)
    (hc : NewPolicyAuthAPIClient gen tok cfg = .ok c)
    (hrecv : Received w c (.PostAppSessions a) resp body)
    (hstatus : resp.StatusCode = 201)
    (hdec : w.unmarshalAppSessionContext body = (v, none))
    (hloc : resp.Location = .ok (A ++ "app-sessions" ++ B))
    (honce : occurrences "app-sessions".data (A ++ "app-sessions" ++ B).data = 1) :
    (PostAppSessions w c a).retVal.appSessCtx = some v ∧
    (PostAppSessions w c a).retVal.locationURI ≠ "" ∧
    (PostAppSessions w c a).retVal.locationURI = c.locationPrefixURI ++ B ∧
    (PostAppSessions w c a).retVal.probDetails = none ∧
    (PostAppSessions w c a).retVal.httpResp.map (fun h => h.StatusCode) = some 201 ∧
    (PostAppSessions w c a).err = none := by
  obtain ⟨r, hp, hcall, hbody⟩ := hrecv
  have hne := locationPrefixURI_ne_empty gen tok cfg c hc B
  have hl := getLocationURI_once c resp A B hloc honce
  simp only [Call.request] at hp
  simp [PostAppSessions, hp, hcall, hbody, hstatus, hdec, hl, hne]

/-- Witness of C1: the PCF answers 201 with the Location
`https://pcf.example/v1/app-sessions/42`. -/
theorem PostAppSessions_created_witness :
    NewPolicyAuthAPIClient (fun _ => none) (.ok "token") exampleConfig = .ok exampleClient ∧
    (PostAppSessions
      (exampleWorld (some (exampleResponse 201 (some "https://pcf.example/v1/app-sessions/42")
        "asc-1"), none)) exampleClient "asc-0").retVal.locationURI
      = "https://af.example/af/v1/policy-authorization/app-sessions/42" ∧
    (PostAppSessions
      (exampleWorld (some (exampleResponse 201 (some "https://pcf.example/v1/app-sessions/42")
        "asc-1"), none)) exampleClient "asc-0").err = none :=
  have h := PostAppSessions_created
    (exampleWorld (some (exampleResponse 201 (some "https://pcf.example/v1/app-sessions/42")
      "asc-1"), none))
    (fun _ => none) (.ok "token") exampleConfig exampleClient "asc-0" "asc-1"
    (exampleResponse 201 (some "https://pcf.example/v1/app-sessions/42") "asc-1") "asc-1"
    "https://pcf.example/v1/" "/42" rfl ⟨("POST", _), rfl, rfl, rfl⟩ rfl rfl rfl
    (by decide)
  ⟨rfl, h.2.2.1.trans (by decide), h.2.2.2.2.2⟩

/-! ## Statuses outside every case of the `switch` -/

/-- C9. For every client method and every received status that is neither a success
status nor a classified error status of that method, the returned error is non-nil with the
raw body text as its message (the empty text for an empty body), no resource and no
`probDetails` is populated, and the result holds the response with its status unchanged. -/
theorem unclassified_status (w : World S) (c : PolicyAuthAPIClient) (call : Call S)
    (resp : HttpResponse) (body : String)
    (hrecv : Received w c call resp body)
    (hs : resp.StatusCode ∉ call.successStatuses)
    (he : resp.StatusCode ∉ call.errorStatuses) :
    (call.run w c).err = some body ∧
    (call.run w c).retVal.resourceEmpty ∧
    (call.run w c).retVal.probDetails = none ∧
    (call.run w c).retVal.httpResp = some resp ∧
    (call.run w c).retVal.status = some resp.StatusCode := by
  obtain ⟨r, hp, hcall, hbody⟩ := hrecv
  cases call <;>
    simp only [Call.successStatuses, Call.errorStatuses, List.mem_cons, List.mem_singleton,
      List.not_mem_nil, or_false, not_or] at hs he <;>
    simp only [Call.request] at hp <;>
    simp [Call.run, Outcome.lift, OpResult.resourceEmpty, OpResult.probDetails,
      OpResult.httpResp, OpResult.status, PostAppSessions, GetAppSession, ModAppSession,
      DeleteAppSession, UpdateEventsSubsc, DeleteEventsSubsc, handleUpdateEventResp,
      hp, hcall, hbody, hs, he]

/-- Witness of C9: `PostAppSessions` answered 204 with an empty body. -/
theorem unclassified_status_witness :
    Received (exampleWorld (some (exampleResponse 204 none ""), none)) exampleClient
      (.PostAppSessions "asc-0") (exampleResponse 204 none "") "" ∧
    ((Call.PostAppSessions "asc-0").run
      (exampleWorld (some (exampleResponse 204 none ""), none)) exampleClient).err = some "" :=
  ⟨⟨("POST", _), rfl, rfl, rfl⟩,
    (unclassified_status (exampleWorld (some (exampleResponse 204 none ""), none)) exampleClient
      (.PostAppSessions "asc-0") (exampleResponse 204 none "") ""
      ⟨("POST", _), rfl, rfl, rfl⟩ (by decide) (by decide)).1⟩

/-! ## Classified error statuses -/

/-- C2, as amended. For every client method and every received status among 400, 403, 404,
411, 413, 415, 429, 500, 503 that the method's `switch` classifies as an error (`GetAppSession`
and `DeleteEventsSubsc` do not classify 411, 413 and 415), with a body that decodes as the
ProblemDetails `v`: `probDetails` is `v` and no resource is populated. -/
theorem problemDetails_decoded (w : World S) (c : PolicyAuthAPIClient) (call : Call S)
    (resp : HttpResponse) (body : String) (v : S.ProblemDetails)
    (hrecv : Received w c call resp body)
    (hs : resp.StatusCode ∈ ([400, 403, 404, 411, 413, 415, 429, 500, 503] : List Int))
    (hcls : resp.StatusCode ∈ call.errorStatuses)
    (hdec : w.unmarshalProblemDetails body = (v, none)) :
    (call.run w c).retVal.probDetails = some v ∧ (call.run w c).retVal.resourceEmpty := by
  obtain ⟨r, hp, hcall, hbody⟩ := hrecv
  have h200 : resp.StatusCode ≠ 200 := by
    intro h; rw [h] at hs; revert hs; decide
  have h201 : resp.StatusCode ≠ 201 := by
    intro h; rw [h] at hs; revert hs; decide
  have h204 : resp.StatusCode ≠ 204 := by
    intro h; rw [h] at hs; revert hs; decide
  cases call <;>
    simp only [Call.errorStatuses] at hcls <;>
    simp only [Call.request] at hp <;>
    simp [Call.run, Outcome.lift, OpResult.resourceEmpty, OpResult.probDetails,
      PostAppSessions, GetAppSession, ModAppSession, DeleteAppSession, UpdateEventsSubsc,
      DeleteEventsSubsc, handleUpdateEventResp, handleApSessDeleteErrResp,
      hp, hcall, hbody, h200, h201, h204, hcls, hdec]

/-- Witness of C2 (amended): `DeleteAppSession` answered 404 with a ProblemDetails body. -/
theorem problemDetails_decoded_witness :
    Received (exampleWorld (some (exampleResponse 404 none "problem-404"), none)) exampleClient
      (.DeleteAppSession "42" none) (exampleResponse 404 none "problem-404") "problem-404" ∧
    ((Call.DeleteAppSession "42" none).run
      (exampleWorld (some (exampleResponse 404 none "problem-404"), none))
      exampleClient).retVal.probDetails = some "problem-404" :=
  ⟨⟨("POST", _), rfl, rfl, rfl⟩,
    (problemDetails_decoded (exampleWorld (some (exampleResponse 404 none "problem-404"), none))
      exampleClient (.DeleteAppSession "42" none) (exampleResponse 404 none "problem-404")
      "problem-404" "problem-404" ⟨("POST", _), rfl, rfl, rfl⟩ (by decide) (by decide) rfl).1⟩

/-- Counterexample to C2 as stated: `GetAppSession` answered 411 with a body that decodes
as ProblemDetails leaves `probDetails` nil, since 411 is not a case of its `switch`. -/
theorem problemDetails_not_decoded_GetAppSession_411 :
    ¬ ∀ (w : World exampleSchema) (c : PolicyAuthAPIClient) (call : Call exampleSchema)
        (resp : HttpResponse) (body : String) (v : exampleSchema.ProblemDetails),
        Received w c call resp body →
        resp.StatusCode ∈ ([400, 403, 404, 411, 413, 415, 429, 500, 503] : List Int) →
        w.unmarshalProblemDetails body = (v, none) →
        (call.run w c).retVal.probDetails = some v ∧ (call.run w c).retVal.resourceEmpty := by
  intro h
  have h1 := (h (exampleWorld (some (exampleResponse 411 none "problem-411"), none))
    exampleClient (.GetAppSession "42") (exampleResponse 411 none "problem-411")
    "problem-411" "problem-411" ⟨("GET", _), rfl, rfl, rfl⟩ (by decide) rfl).1
  exact absurd h1 (by intro h2; cases h2)

theorem errorStatuses_not_success (call : Call S) (s : Int) (h : s ∈ call.errorStatuses) :
    s ≠ 200 ∧ s ≠ 201 ∧ s ≠ 204 := by
  cases call <;>
    simp only [Call.errorStatuses, List.mem_cons, List.mem_singleton, List.not_mem_nil,
      or_false] at h <;>
    omega

/-- C4, as amended. For every client method and every received status in the method's
classified error set with a body that decodes as the ProblemDetails `v`, the returned error
is nil: the protocol error reaches the caller through `probDetails = v` only. -/
theorem problemDetails_without_error (w : World S) (c : PolicyAuthAPIClient) (call : Call S)
    (resp : HttpResponse) (body : String) (v : S.ProblemDetails)
    (hrecv : Received w c call resp body)
    (hcls : resp.StatusCode ∈ call.errorStatuses)
    (hdec : w.unmarshalProblemDetails body = (v, none)) :
    (call.run w c).err = none ∧ (call.run w c).retVal.probDetails = some v := by
  obtain ⟨r, hp, hcall, hbody⟩ := hrecv
  obtain ⟨h200, h201, h204⟩ := errorStatuses_not_success call resp.StatusCode hcls
  cases call <;>
    simp only [Call.errorStatuses] at hcls <;>
    simp only [Call.request] at hp <;>
    simp [Call.run, Outcome.lift, OpResult.probDetails,
      PostAppSessions, GetAppSession, ModAppSession, DeleteAppSession, UpdateEventsSubsc,
      DeleteEventsSubsc, handleUpdateEventResp, handleApSessDeleteErrResp,
      hp, hcall, hbody, h200, h201, h204, hcls, hdec]

/-- Witness of C4 (amended): `UpdateEventsSubsc` answered 403 with a ProblemDetails body. -/
theorem problemDetails_without_error_witness :
    Received (exampleWorld (some (exampleResponse 403 none "problem-403"), none)) exampleClient
      (.UpdateEventsSubsc "42" (some "evs-0")) (exampleResponse 403 none "problem-403")
      "problem-403" ∧
    ((Call.UpdateEventsSubsc "42" (some "evs-0")).run
      (exampleWorld (some (exampleResponse 403 none "problem-403"), none))
      exampleClient).err = none :=
  ⟨⟨("PUT", _), rfl, rfl, rfl⟩,
    (problemDetails_without_error
      (exampleWorld (some (exampleResponse 403 none "problem-403"), none))
      exampleClient (.UpdateEventsSubsc "42" (some "evs-0"))
      (exampleResponse 403 none "problem-403")
      "problem-403" "problem-403" ⟨("PUT", _), rfl, rfl, rfl⟩ (by decide) rfl).1⟩

/-- Counterexample to C4 as stated: `PostAppSessions` answered 400 with a body that decodes as
ProblemDetails returns a nil error. -/
theorem error_nil_PostAppSessions_400 :
    ¬ ∀ (w : World exampleSchema) (c : PolicyAuthAPIClient) (call : Call exampleSchema)
        (resp : HttpResponse) (body : String) (v : exampleSchema.ProblemDetails),
        Received w c call resp body →
        resp.StatusCode ∈ call.errorStatuses →
        w.unmarshalProblemDetails body = (v, none) →
        (call.run w c).err ≠ none := by
  intro h
  exact h (exampleWorld (some (exampleResponse 400 none "problem-400"), none))
    exampleClient (.PostAppSessions "asc-0") (exampleResponse 400 none "problem-400")
    "problem-400" "problem-400" ⟨("POST", _), rfl, rfl, rfl⟩ (by decide) rfl rfl

/-- C3. `DeleteAppSession` answered 404, whatever the body (and whatever becomes of reading
it): the returned error is non-nil or `probDetails` is non-nil, and `appSessCtx` is nil.
For every client method: when the transport returned a response whose status is not a
success status of the method, the outcome never has both a nil error and a nil
`probDetails`. -/
theorem non_success_is_reported :
    (∀ (w : World S) (c : PolicyAuthAPIClient) (appSessionID : String)
        (eventSubscReq : Option S.EventsSubscReqData) (resp : HttpResponse),
        Responded w c (.DeleteAppSession appSessionID eventSubscReq) resp →
        resp.StatusCode = 404 →
        ((DeleteAppSession w c appSessionID eventSubscReq).err ≠ none ∨
          (DeleteAppSession w c appSessionID eventSubscReq).retVal.probDetails ≠ none) ∧
        (DeleteAppSession w c appSessionID eventSubscReq).retVal.appSessCtx = none) ∧
    (∀ (w : World S) (c : PolicyAuthAPIClient) (call : Call S) (resp : HttpResponse),
        Responded w c call resp →
        resp.StatusCode ∉ call.successStatuses →
        ¬ ((call.run w c).err = none ∧ (call.run w c).retVal.probDetails = none)) := by
  constructor
  · intro w c id e resp ⟨r, hp, hcall⟩ hs
    simp only [Call.request] at hp
    rcases hca : w.callAPI r with ⟨x, err⟩
    rw [hca] at hcall
    simp only at hcall
    subst hcall
    cases err with
    | some t => simp [DeleteAppSession, hp, hca]
    | none =>
      rcases hb : resp.Body with t | body
      · simp [DeleteAppSession, hp, hca, hb]
      · simp [DeleteAppSession, hp, hca, hb, hs]
  · intro w c call resp ⟨r, hp, hcall⟩ hs
    rcases hca : w.callAPI r with ⟨x, err⟩
    rw [hca] at hcall
    simp only at hcall
    subst hcall
    cases err with
    | some t =>
      cases call <;> simp only [Call.request] at hp <;>
        simp [Call.run, Outcome.lift, PostAppSessions, GetAppSession, ModAppSession,
          DeleteAppSession, UpdateEventsSubsc, DeleteEventsSubsc, hp, hca]
    | none =>
      rcases hb : resp.Body with t | body
      · cases call <;> simp only [Call.request] at hp <;>
          simp [Call.run, Outcome.lift, PostAppSessions, GetAppSession, ModAppSession,
            DeleteAppSession, UpdateEventsSubsc, DeleteEventsSubsc, hp, hca, hb]
      · cases call <;>
          simp only [Call.successStatuses, List.mem_cons, List.mem_singleton,
            List.not_mem_nil, or_false, not_or] at hs <;>
          simp only [Call.request] at hp <;>
          simp only [Call.run, Outcome.lift, OpResult.probDetails, PostAppSessions,
            GetAppSession, ModAppSession, DeleteAppSession, UpdateEventsSubsc,
            DeleteEventsSubsc, handleUpdateEventResp, handleApSessDeleteErrResp,
            hp, hca, hb, hs, if_false, false_or] <;>
          split <;> (try split) <;> simp_all

/-- Witness of C3: `DeleteAppSession` answered 404 with a body that is no ProblemDetails. -/
theorem non_success_is_reported_witness :
    Responded (exampleWorld (some (exampleResponse 404 none "gone"), none)) exampleClient
      (.DeleteAppSession "42" none) (exampleResponse 404 none "gone") ∧
    (exampleResponse 404 none "gone").StatusCode = 404 ∧
    ((DeleteAppSession (exampleWorld (some (exampleResponse 404 none "gone"), none))
        exampleClient "42" none).err ≠ none ∨
      (DeleteAppSession (exampleWorld (some (exampleResponse 404 none "gone"), none))
        exampleClient "42" none).retVal.probDetails ≠ none) ∧
    (DeleteAppSession (exampleWorld (some (exampleResponse 404 none "gone"), none))
      exampleClient "42" none).retVal.appSessCtx = none :=
  ⟨⟨("POST", _), rfl, rfl⟩, rfl,
    (@non_success_is_reported exampleSchema).1
      (exampleWorld (some (exampleResponse 404 none "gone"), none)) exampleClient "42" none
      (exampleResponse 404 none "gone") ⟨("POST", _), rfl, rfl⟩ rfl⟩

/-! ## Token refresh on 401 -/

/-- C5. For every client method and every received response (status and body read), the
trace holds exactly one `validatePAAuthToken` when the status is 401, whether or not the
body decodes as ProblemDetails, and none for every other status; for a 401 whose body
decodes as the ProblemDetails `v` the result reports status 401 with `probDetails = v`; the
returned values are the same whatever `validatePAAuthToken` does; and the client after the
call is the one `validatePAAuthToken` returned when the status is 401, and the client the
method was given for every other status. -/
theorem refresh_once_on_401 (w : World S) (c : PolicyAuthAPIClient) (call : Call S)
    (resp : HttpResponse) (body : String)
    (hrecv : Received w c call resp body) :
    refreshCount (call.run w c).trace = (if resp.StatusCode = 401 then 1 else 0) ∧
    (∀ v, resp.StatusCode = 401 → w.unmarshalProblemDetails body = (v, none) →
      (call.run w c).retVal.status = some 401 ∧ (call.run w c).retVal.probDetails = some v) ∧
    (∀ f : PolicyAuthAPIClient → PolicyAuthAPIClient,
      (call.run { w with validatePAAuthToken := f } c).retVal = (call.run w c).retVal ∧
      (call.run { w with validatePAAuthToken := f } c).err = (call.run w c).err) ∧
    (call.run w c).client = (if resp.StatusCode = 401 then w.validatePAAuthToken c else c) := by
  obtain ⟨r, hp, hcall, hbody⟩ := hrecv
  refine ⟨?_, ?_, ?_, ?_⟩
  · by_cases h401 : resp.StatusCode = 401
    · cases call <;> simp only [Call.request] at hp <;>
        simp [Call.run, Outcome.lift, PostAppSessions, GetAppSession, ModAppSession,
          DeleteAppSession, UpdateEventsSubsc, DeleteEventsSubsc, handleUpdateEventResp,
          hp, hcall, hbody, h401] <;>
        (try split) <;> simp [refreshCount]
    · cases call <;> simp only [Call.request] at hp <;>
        simp only [Call.run, Outcome.lift, PostAppSessions, GetAppSession, ModAppSession,
          DeleteAppSession, UpdateEventsSubsc, DeleteEventsSubsc, handleUpdateEventResp,
          hp, hcall, hbody, h401, if_false] <;>
        repeat (first | split | simp [refreshCount])
  · intro v h401 hdec
    cases call <;> simp only [Call.request] at hp <;>
      simp [Call.run, Outcome.lift, OpResult.status, OpResult.httpResp, OpResult.probDetails,
        PostAppSessions, GetAppSession, ModAppSession, DeleteAppSession, UpdateEventsSubsc,
        DeleteEventsSubsc, handleUpdateEventResp, handleApSessDeleteErrResp,
        hp, hcall, hbody, h401, hdec]
  · intro f
    cases call <;> simp only [Call.request] at hp <;>
      simp only [Call.run, Outcome.lift, PostAppSessions, GetAppSession, ModAppSession,
        DeleteAppSession, UpdateEventsSubsc, DeleteEventsSubsc, handleUpdateEventResp,
        handleApSessDeleteErrResp, World.unmarshalAppSessionContextPtr,
        hp, hcall, hbody] <;>
      repeat (first | split | simp)
  · by_cases h401 : resp.StatusCode = 401
    · cases call <;> simp only [Call.request] at hp <;>
        simp [Call.run, Outcome.lift, PostAppSessions, GetAppSession, ModAppSession,
          DeleteAppSession, UpdateEventsSubsc, DeleteEventsSubsc, handleUpdateEventResp,
          hp, hcall, hbody, h401] <;>
        (try split) <;> simp
    · cases call <;> simp only [Call.request] at hp <;>
        simp only [Call.run, Outcome.lift, PostAppSessions, GetAppSession, ModAppSession,
          DeleteAppSession, UpdateEventsSubsc, DeleteEventsSubsc, handleUpdateEventResp,
          hp, hcall, hbody, h401, if_false] <;>
        repeat (first | split | simp)

/-- Witness of C5: `GetAppSession` answered 401 with a body that is no ProblemDetails
still refreshes the token once. -/
theorem refresh_once_on_401_witness :
    Received (exampleWorld (some (exampleResponse 401 none "garbage"), none)) exampleClient
      (.GetAppSession "42") (exampleResponse 401 none "garbage") "garbage" ∧
    refreshCount ((Call.GetAppSession "42").run
      (exampleWorld (some (exampleResponse 401 none "garbage"), none)) exampleClient).trace
      = 1 :=
  ⟨⟨("GET", _), rfl, rfl, rfl⟩,
    (refresh_once_on_401 (exampleWorld (some (exampleResponse 401 none "garbage"), none))
      exampleClient (.GetAppSession "42") (exampleResponse 401 none "garbage") "garbage"
      ⟨("GET", _), rfl, rfl, rfl⟩).1⟩

/-! ## Transport failures -/

/-- C6. For every client method, when the request was built and `callAPI` returns a non-nil
error `e` (with or without a response), the method returns `e` unchanged; in the result
`probDetails`, the resource fields and `locationURI` are empty and `httpResp` is what the
transport returned; the method made no call after `callAPI` (the body is not read, no
refresh happens), and the client is unchanged. -/
theorem transport_failure (w : World S) (c : PolicyAuthAPIClient) (call : Call S)
    (r : S.Request) (httpResponse : Option HttpResponse) (e : String)
    (hp : w.prepareRequest (call.request c) = .ok r)
    (hcall : w.callAPI r = (httpResponse, some e)) :
    (call.run w c).err = some e ∧
    (call.run w c).retVal.probDetails = none ∧
    (call.run w c).retVal.resourceEmpty ∧
    (call.run w c).retVal.locationURI = "" ∧
    (call.run w c).retVal.httpResp = httpResponse ∧
    (call.run w c).trace = [.prepareRequest (call.request c), .callAPI r] ∧
    (call.run w c).client = c := by
  cases call <;> simp only [Call.request] at hp <;>
    simp [Call.run, Call.request, Outcome.lift, OpResult.probDetails, OpResult.resourceEmpty,
      OpResult.locationURI, OpResult.httpResp, PostAppSessions, GetAppSession, ModAppSession,
      DeleteAppSession, UpdateEventsSubsc, DeleteEventsSubsc, hp, hcall]

/-- Witness of C6: the connection to the PCF is refused during `ModAppSession`. -/
theorem transport_failure_witness :
    (exampleWorld (none, some "connection refused")).callAPI
      ("PATCH", "https://pcf.example:8095/npcf-policyauthorization/v1/app-sessions/42")
      = (none, some "connection refused") ∧
    ((Call.ModAppSession "42" "upd").run (exampleWorld (none, some "connection refused"))
      exampleClient).err = some "connection refused" ∧
    ((Call.ModAppSession "42" "upd").run (exampleWorld (none, some "connection refused"))
      exampleClient).retVal.probDetails = none :=
  have h := transport_failure (exampleWorld (none, some "connection refused")) exampleClient
    (.ModAppSession "42" "upd")
    ("PATCH", "https://pcf.example:8095/npcf-policyauthorization/v1/app-sessions/42")
    none "connection refused" rfl rfl
  ⟨rfl, h.1, h.2.1⟩

/-! ## Decode failures -/

/-- C7. For every client method that expects a success body (`PostAppSessions` on 201;
`GetAppSession`, `ModAppSession`, `DeleteAppSession` on 200; `UpdateEventsSubsc` on 200 and
201): when decoding the received body fails with the error `e`, the status held by the
result's `httpResp` is 500 and the returned error is `e`. -/
theorem success_body_decode_failure (w : World S) (c : PolicyAuthAPIClient) (call : Call S)
    (resp : HttpResponse) (body e : String)
    (hrecv : Received w c call resp body)
    (hs : resp.StatusCode ∈ call.bodyStatuses)
    (hdec : call.bodyDecodeError w body = some e) :
    (call.run w c).retVal.status = some 500 ∧ (call.run w c).err = some e := by
  obtain ⟨r, hp, hcall, hbody⟩ := hrecv
  cases call <;>
    simp only [Call.bodyStatuses, List.mem_cons, List.mem_singleton, List.not_mem_nil,
      or_false] at hs <;>
    simp only [Call.request] at hp <;>
    simp only [Call.bodyDecodeError] at hdec
  · simp [Call.run, Outcome.lift, OpResult.status, OpResult.httpResp, PostAppSessions,
      hp, hcall, hbody, hs, hdec]
    unfold getLocationURI
    split
    · rfl
    · split <;> rfl
  · simp [Call.run, Outcome.lift, OpResult.status, OpResult.httpResp, GetAppSession,
      hp, hcall, hbody, hs, hdec]
  · simp [Call.run, Outcome.lift, OpResult.status, OpResult.httpResp, ModAppSession,
      hp, hcall, hbody, hs, hdec]
  · simp [Call.run, Outcome.lift, OpResult.status, OpResult.httpResp, DeleteAppSession,
      hp, hcall, hbody, hs, hdec]
  · simp [Call.run, Outcome.lift, OpResult.status, OpResult.httpResp, UpdateEventsSubsc,
      handleUpdateEventResp, hp, hcall, hbody, hs, hdec]

/-- Witness of C7: `UpdateEventsSubsc` answered 201 with a body that is no
EventsSubscReqData. -/
theorem success_body_decode_failure_witness :
    Received (exampleWorld (some (exampleResponse 201 (some "https://pcf.example/v1/app-sessions/42/events-subscription") "garbage"), none))
      exampleClient (.UpdateEventsSubsc "42" none)
      (exampleResponse 201 (some "https://pcf.example/v1/app-sessions/42/events-subscription") "garbage")
      "garbage" ∧
    ((Call.UpdateEventsSubsc "42" none).run
      (exampleWorld (some (exampleResponse 201 (some "https://pcf.example/v1/app-sessions/42/events-subscription") "garbage"), none))
      exampleClient).retVal.status = some 500 :=
  ⟨⟨("PUT", _), rfl, rfl, rfl⟩,
    (success_body_decode_failure
      (exampleWorld (some (exampleResponse 201 (some "https://pcf.example/v1/app-sessions/42/events-subscription") "garbage"), none))
      exampleClient (.UpdateEventsSubsc "42" none)
      (exampleResponse 201 (some "https://pcf.example/v1/app-sessions/42/events-subscription") "garbage")
      "garbage" "invalid character" ⟨("PUT", _), rfl, rfl, rfl⟩ (by decide) rfl).1⟩

/-- When the body of a classified error status fails to decode as ProblemDetails,
`PostAppSessions`, `GetAppSession`, `ModAppSession`, `UpdateEventsSubsc` and
`DeleteEventsSubsc` return the decode error and leave `probDetails` nil, while
`DeleteAppSession` returns the decode error and sets `probDetails` to the value it failed
to decode into. -/
theorem problemDetails_decode_failure (w : World S) (c : PolicyAuthAPIClient) (call : Call S)
    (resp : HttpResponse) (body e : String)
    (hrecv : Received w c call resp body)
    (hcls : resp.StatusCode ∈ call.errorStatuses)
    (hdec : (w.unmarshalProblemDetails body).2 = some e) :
    (call.run w c).err = some e ∧
    (call.run w c).retVal.probDetails =
      match call with
      | .DeleteAppSession _ _ => some (w.unmarshalProblemDetails body).1
      | _ => none := by
  obtain ⟨r, hp, hcall, hbody⟩ := hrecv
  obtain ⟨h200, h201, h204⟩ := errorStatuses_not_success call resp.StatusCode hcls
  cases call <;>
    simp only [Call.errorStatuses] at hcls <;>
    simp only [Call.request] at hp <;>
    simp [Call.run, Outcome.lift, OpResult.probDetails,
      PostAppSessions, GetAppSession, ModAppSession, DeleteAppSession, UpdateEventsSubsc,
      DeleteEventsSubsc, handleUpdateEventResp, handleApSessDeleteErrResp,
      hp, hcall, hbody, h200, h201, h204, hcls, hdec]

/-- C8, at the failing input. `DeleteAppSession` answered 404 with the body `garbage`, which
fails to decode as ProblemDetails: the decode error is returned, and `probDetails` is
non-nil (it holds the zero value the decoder left behind). On the same answer
`GetAppSession` returns the decode error with a nil `probDetails`. -/
theorem DeleteAppSession_probDetails_after_decode_failure :
    (exampleWorld (some (exampleResponse 404 none "garbage"), none)).unmarshalProblemDetails
      "garbage" = ("", some "invalid character") ∧
    (DeleteAppSession (exampleWorld (some (exampleResponse 404 none "garbage"), none))
      exampleClient "42" none).err = some "invalid character" ∧
    (DeleteAppSession (exampleWorld (some (exampleResponse 404 none "garbage"), none))
      exampleClient "42" none).retVal.probDetails = some "" ∧
    (GetAppSession (exampleWorld (some (exampleResponse 404 none "garbage"), none))
      exampleClient "42").err = some "invalid character" ∧
    (GetAppSession (exampleWorld (some (exampleResponse 404 none "garbage"), none))
      exampleClient "42").retVal.probDetails = none :=
  ⟨rfl, rfl, rfl, rfl, rfl⟩

/-! ## Locations without the `app-sessions` segment -/

/-- A Location that does not hold `app-sessions` is not split. -/
theorem Split_absent (L : String) (h : occurrences "app-sessions".data L.data = 0) :
    strings.Split L "app-sessions" = [L] := by
  have hsep : "app-sessions".data = 'a' :: "pp-sessions".data := rfl
  have hne : ¬ ("app-sessions".data = []) := by rw [hsep]; exact List.cons_ne_nil _ _
  unfold strings.Split
  rw [if_neg hne, splitAux_none _ L.data [] h]
  rfl

/-- C11, as amended. `getLocationURI`: for every response whose Location is readable and does
not hold `app-sessions`, nothing is appended: the returned string is the client's
`locationPrefixURI`, and the response is left as it was. -/
theorem getLocationURI_segment_absent (c : PolicyAuthAPIClient) (resp : HttpResponse)
    (L : String) (hloc : resp.Location = .ok L)
    (habsent : occurrences "app-sessions".data L.data = 0) :
    getLocationURI resp c = (c.locationPrefixURI, resp) := by
  unfold getLocationURI
  rw [hloc]
  simp only [Split_absent L habsent]

/-- Witness of C11 (amended): the Location `https://pcf.example/v1/sessions/42`. -/
theorem getLocationURI_segment_absent_witness :
    (exampleResponse 201 (some "https://pcf.example/v1/sessions/42") "asc-1").Location
      = .ok "https://pcf.example/v1/sessions/42" ∧
    occurrences "app-sessions".data "https://pcf.example/v1/sessions/42".data = 0 ∧
    (getLocationURI (exampleResponse 201 (some "https://pcf.example/v1/sessions/42") "asc-1")
      exampleClient).1 = "https://af.example/af/v1/policy-authorization/app-sessions" :=
  ⟨rfl, by decide,
    congrArg Prod.fst (getLocationURI_segment_absent exampleClient
      (exampleResponse 201 (some "https://pcf.example/v1/sessions/42") "asc-1")
      "https://pcf.example/v1/sessions/42" rfl (by decide))⟩

/-- Counterexample to C11 as stated: for the Location `https://pcf.example/v1/sessions/42`,
which lacks `app-sessions`, the client built from `exampleConfig` gets its prefix back, not
the empty string. -/
theorem getLocationURI_segment_absent_not_empty :
    ¬ ∀ (c : PolicyAuthAPIClient) (resp : HttpResponse) (L : String),
        resp.Location = .ok L → occurrences "app-sessions".data L.data = 0 →
        (getLocationURI resp c).1 = "" := by
  intro h
  have h1 := h exampleClient
    (exampleResponse 201 (some "https://pcf.example/v1/sessions/42") "asc-1")
    "https://pcf.example/v1/sessions/42" rfl (by decide)
  revert h1
  decide

/-! ## Events-subscription Put -/

/-- `handleUpdateEventResp` on 200 or 201 with a body that decodes as the EventsSubscReqData
`v`: the error is nil, `eventSubscReq = v`, `probDetails` is nil, and the result holds the
response as `getLocationURI` left it. -/
theorem handleUpdateEventResp_success (w : World S) (c : PolicyAuthAPIClient)
    (httpResp : HttpResponse) (respBody : String) (v : S.EventsSubscReqData)
    (hs : httpResp.StatusCode = 200 ∨ httpResp.StatusCode = 201)
    (hdec : w.unmarshalEventsSubscReqData respBody = (v, none)) :
    (handleUpdateEventResp w respBody httpResp c).err = none ∧
    (handleUpdateEventResp w respBody httpResp c).retVal.eventSubscReq = some v ∧
    (handleUpdateEventResp w respBody httpResp c).retVal.probDetails = none ∧
    (handleUpdateEventResp w respBody httpResp c).retVal.httpResp
      = some (getLocationURI httpResp c).2 ∧
    (handleUpdateEventResp w respBody httpResp c).retVal.locationURI
      = (getLocationURI httpResp c).1 := by
  simp [handleUpdateEventResp, hs, hdec]

/-- C12, at the failing input. `UpdateEventsSubsc` answered 200 with a body that decodes as
EventsSubscReqData and no Location header: the error is nil, `eventSubscReq` is the decoded
body and `probDetails` is nil, but the status held by the result's `httpResp` is 500, not
200 (`getLocationURI` overwrote it). With a Location header the same answer keeps 200. -/
theorem UpdateEventsSubsc_200_without_Location :
    (UpdateEventsSubsc (exampleWorld (some (exampleResponse 200 none "evs-1"), none))
      exampleClient "42" (some "evs-0")).err = none ∧
    (UpdateEventsSubsc (exampleWorld (some (exampleResponse 200 none "evs-1"), none))
      exampleClient "42" (some "evs-0")).retVal.eventSubscReq = some "evs-1" ∧
    (UpdateEventsSubsc (exampleWorld (some (exampleResponse 200 none "evs-1"), none))
      exampleClient "42" (some "evs-0")).retVal.probDetails = none ∧
    (UpdateEventsSubsc (exampleWorld (some (exampleResponse 200 none "evs-1"), none))
      exampleClient "42" (some "evs-0")).retVal.httpResp.map (fun h => h.StatusCode)
      = some 500 ∧
    (UpdateEventsSubsc
      (exampleWorld (some (exampleResponse 200
        (some "https://pcf.example/v1/app-sessions/42/events-subscription") "evs-1"), none))
      exampleClient "42" (some "evs-0")).retVal.httpResp.map (fun h => h.StatusCode)
      = some 200 := by
  refine ⟨rfl, rfl, rfl, rfl, ?_⟩
  decide

/-- C13. `handleUpdateEventResp`: on 200 with a body that decodes as the EventsSubscReqData
`v` and as the EventsNotification `n`, `eventSubscReq = v`, `evsNotif = n` and the error is
nil; on 204 none of `eventSubscReq`, `evsNotif`, `probDetails`, `locationURI` is populated
and the error is nil. -/
theorem handleUpdateEventResp_payloads (w : World S) (c : PolicyAuthAPIClient)
    (httpResp : HttpResponse) (respBody : String) :
    (httpResp.StatusCode = 200 →
      ∀ (v : S.EventsSubscReqData) (n : S.EventsNotification),
        w.unmarshalEventsSubscReqData respBody = (v, none) →
        w.unmarshalEventsNotification respBody = (n, none) →
        (handleUpdateEventResp w respBody httpResp c).retVal.eventSubscReq = some v ∧
        (handleUpdateEventResp w respBody httpResp c).retVal.evsNotif = some n ∧
        (handleUpdateEventResp w respBody httpResp c).err = none) ∧
    (httpResp.StatusCode = 204 →
      (handleUpdateEventResp w respBody httpResp c).retVal.eventSubscReq = none ∧
      (handleUpdateEventResp w respBody httpResp c).retVal.evsNotif = none ∧
      (handleUpdateEventResp w respBody httpResp c).retVal.probDetails = none ∧
      (handleUpdateEventResp w respBody httpResp c).retVal.locationURI = "" ∧
      (handleUpdateEventResp w respBody httpResp c).err = none) := by
  constructor
  · intro hs v n hv hn
    simp [handleUpdateEventResp, hs, hv, hn]
  · intro hs
    simp [handleUpdateEventResp, hs]

/-- Witness of C13: a 200 whose body `evsNotif-1` decodes both ways, and a 204. -/
theorem handleUpdateEventResp_payloads_witness :
    ((handleUpdateEventResp (exampleWorld (none, none)) "evsNotif-1"
        (exampleResponse 200 none "evsNotif-1") exampleClient).retVal.eventSubscReq
        = some "evsNotif-1" ∧
      (handleUpdateEventResp (exampleWorld (none, none)) "evsNotif-1"
        (exampleResponse 200 none "evsNotif-1") exampleClient).retVal.evsNotif
        = some "evsNotif-1" ∧
      (handleUpdateEventResp (exampleWorld (none, none)) "evsNotif-1"
        (exampleResponse 200 none "evsNotif-1") exampleClient).err = none) ∧
    (handleUpdateEventResp (exampleWorld (none, none)) ""
      (exampleResponse 204 none "") exampleClient).retVal.locationURI = "" :=
  ⟨(handleUpdateEventResp_payloads (exampleWorld (none, none)) exampleClient
      (exampleResponse 200 none "evsNotif-1") "evsNotif-1").1 rfl "evsNotif-1" "evsNotif-1"
      rfl rfl,
    ((handleUpdateEventResp_payloads (exampleWorld (none, none)) exampleClient
      (exampleResponse 204 none "") "").2 rfl).2.2.2.1⟩

/-! ## Success branches of the session methods -/

/-- C14. `GetAppSession`, `ModAppSession` and `DeleteAppSession`: when the PCF answers 200
with a body that decodes as the AppSessionContext `v` (a JSON document other than the literal
`null`, decoded without error), the result has `appSessCtx = v`, a nil `probDetails`, an
empty `locationURI`, the reported status 200, and the returned error is nil. -/
theorem session_200_resource (w : World S) (c : PolicyAuthAPIClient) (resp : HttpResponse)
    (body : String) (v : S.AppSessionContext)
    (hstatus : resp.StatusCode = 200)
    (hnull : w.isNull body = false)
    (hdec : w.unmarshalAppSessionContext body = (v, none)) :
    (∀ id, Received w c (.GetAppSession id) resp body →
      (GetAppSession w c id).retVal.appSessCtx = some v ∧
      (GetAppSession w c id).retVal.probDetails = none ∧
      (GetAppSession w c id).retVal.locationURI = "" ∧
      (GetAppSession w c id).retVal.httpResp.map (fun h => h.StatusCode) = some 200 ∧
      (GetAppSession w c id).err = none) ∧
    (∀ id u, Received w c (.ModAppSession id u) resp body →
      (ModAppSession w c id u).retVal.appSessCtx = some v ∧
      (ModAppSession w c id u).retVal.probDetails = none ∧
      (ModAppSession w c id u).retVal.locationURI = "" ∧
      (ModAppSession w c id u).retVal.httpResp.map (fun h => h.StatusCode) = some 200 ∧
      (ModAppSession w c id u).err = none) ∧
    (∀ id e, Received w c (.DeleteAppSession id e) resp body →
      (DeleteAppSession w c id e).retVal.appSessCtx = some v ∧
      (DeleteAppSession w c id e).retVal.probDetails = none ∧
      (DeleteAppSession w c id e).retVal.locationURI = "" ∧
      (DeleteAppSession w c id e).retVal.httpResp.map (fun h => h.StatusCode) = some 200 ∧
      (DeleteAppSession w c id e).err = none) := by
  have hptr : w.unmarshalAppSessionContextPtr body = (some v, none) := by
    simp [World.unmarshalAppSessionContextPtr, hnull, hdec]
  refine ⟨?_, ?_, ?_⟩
  · intro id ⟨r, hp, hcall, hbody⟩
    simp only [Call.request] at hp
    simp [GetAppSession, hp, hcall, hbody, hstatus, hptr]
  · intro id u ⟨r, hp, hcall, hbody⟩
    simp only [Call.request] at hp
    simp [ModAppSession, hp, hcall, hbody, hstatus, hptr]
  · intro id e ⟨r, hp, hcall, hbody⟩
    simp only [Call.request] at hp
    simp [DeleteAppSession, hp, hcall, hbody, hstatus, hptr]

/-- Witness of C14: `GetAppSession` answered 200 with the body `asc-7`. -/
theorem session_200_resource_witness :
    Received (exampleWorld (some (exampleResponse 200 none "asc-7"), none)) exampleClient
      (.GetAppSession "42") (exampleResponse 200 none "asc-7") "asc-7" ∧
    (GetAppSession (exampleWorld (some (exampleResponse 200 none "asc-7"), none))
      exampleClient "42").retVal.appSessCtx = some "asc-7" ∧
    (GetAppSession (exampleWorld (some (exampleResponse 200 none "asc-7"), none))
      exampleClient "42").err = none :=
  have h := (session_200_resource
    (exampleWorld (some (exampleResponse 200 none "asc-7"), none)) exampleClient
    (exampleResponse 200 none "asc-7") "asc-7" "asc-7" rfl rfl rfl).1 "42"
    ⟨("GET", _), rfl, rfl, rfl⟩
  ⟨⟨("GET", _), rfl, rfl, rfl⟩, h.1, h.2.2.2.2⟩

/-- C15. `DeleteAppSession` and `DeleteEventsSubsc`: when the PCF answers 204, whatever the
body read from the response, the returned error is nil and the result is empty: no resource,
no `probDetails`, no `locationURI`, and the reported status is 204. -/
theorem delete_204_empty (w : World S) (c : PolicyAuthAPIClient) (resp : HttpResponse)
    (body : String) (hstatus : resp.StatusCode = 204) :
    (∀ id e, Received w c (.DeleteAppSession id e) resp body →
      (DeleteAppSession w c id e).err = none ∧
      (DeleteAppSession w c id e).retVal.appSessCtx = none ∧
      (DeleteAppSession w c id e).retVal.probDetails = none ∧
      (DeleteAppSession w c id e).retVal.locationURI = "" ∧
      (DeleteAppSession w c id e).retVal.httpResp.map (fun h => h.StatusCode) = some 204) ∧
    (∀ id, Received w c (.DeleteEventsSubsc id) resp body →
      (DeleteEventsSubsc w c id).err = none ∧
      (DeleteEventsSubsc w c id).retVal.eventSubscReq = none ∧
      (DeleteEventsSubsc w c id).retVal.evsNotif = none ∧
      (DeleteEventsSubsc w c id).retVal.probDetails = none ∧
      (DeleteEventsSubsc w c id).retVal.locationURI = "" ∧
      (DeleteEventsSubsc w c id).retVal.httpResp.map (fun h => h.StatusCode) = some 204) := by
  refine ⟨?_, ?_⟩
  · intro id e ⟨r, hp, hcall, hbody⟩
    simp only [Call.request] at hp
    simp [DeleteAppSession, hp, hcall, hbody, hstatus]
  · intro id ⟨r, hp, hcall, hbody⟩
    simp only [Call.request] at hp
    simp [DeleteEventsSubsc, hp, hcall, hbody, hstatus]

/-- Witness of C15: `DeleteEventsSubsc` answered 204 with a body that is not empty. -/
theorem delete_204_empty_witness :
    Received (exampleWorld (some (exampleResponse 204 none "ignored"), none)) exampleClient
      (.DeleteEventsSubsc "42") (exampleResponse 204 none "ignored") "ignored" ∧
    (DeleteEventsSubsc (exampleWorld (some (exampleResponse 204 none "ignored"), none))
      exampleClient "42").err = none ∧
    (DeleteEventsSubsc (exampleWorld (some (exampleResponse 204 none "ignored"), none))
      exampleClient "42").retVal.probDetails = none :=
  have h := (delete_204_empty
    (exampleWorld (some (exampleResponse 204 none "ignored"), none)) exampleClient
    (exampleResponse 204 none "ignored") "ignored" rfl).2 "42" ⟨("DELETE", _), rfl, rfl, rfl⟩
  ⟨⟨("DELETE", _), rfl, rfl, rfl⟩, h.1, h.2.2.2.1⟩

/-! ## Invariants of every result -/

/-- C16. For every world (every response and every transport outcome) and every call of a
client method: in a `PcfPAResponse` result `appSessCtx` and `probDetails` are not both
non-nil, and in an `EventSubscResponse` result a non-nil `probDetails` comes with nil
`eventSubscReq` and nil `evsNotif`. -/
theorem payloads_exclusive (w : World S) (c : PolicyAuthAPIClient) (call : Call S) :
    match (call.run w c).retVal with
    | .pa r => ¬ (r.appSessCtx ≠ none ∧ r.probDetails ≠ none)
    | .ev r => r.probDetails ≠ none → r.eventSubscReq = none ∧ r.evsNotif = none := by
  cases call <;>
    simp only [Call.run, Outcome.lift, PostAppSessions, GetAppSession, ModAppSession,
      DeleteAppSession, UpdateEventsSubsc, DeleteEventsSubsc, handleUpdateEventResp] <;>
    repeat (first | split | simp)

/-- C17. For every client method, whenever the transport returned a response (with or
without an error, whatever becomes of reading and decoding its body), the result's `httpResp`
is that response on every return path: it is non-nil and holds the response as received or,
where the method overwrote its status, with `StatusCode` 500 and nothing else changed. -/
theorem httpResp_is_response (w : World S) (c : PolicyAuthAPIClient) (call : Call S)
    (resp : HttpResponse) (h : Responded w c call resp) :
    (call.run w c).retVal.httpResp = some resp ∨
    (call.run w c).retVal.httpResp = some { resp with StatusCode := 500 } := by
  obtain ⟨r, hp, hcall⟩ := h
  rcases hca : w.callAPI r with ⟨x, err⟩
  rw [hca] at hcall
  simp only at hcall
  subst hcall
  cases err with
  | some t =>
    cases call <;> simp only [Call.request] at hp <;>
      simp [Call.run, Outcome.lift, OpResult.httpResp, PostAppSessions, GetAppSession,
        ModAppSession, DeleteAppSession, UpdateEventsSubsc, DeleteEventsSubsc, hp, hca]
  | none =>
    obtain ⟨st, loc, bd⟩ := resp
    cases bd with
    | error t =>
      cases call <;> simp only [Call.request] at hp <;>
        simp [Call.run, Outcome.lift, OpResult.httpResp, PostAppSessions, GetAppSession,
          ModAppSession, DeleteAppSession, UpdateEventsSubsc, DeleteEventsSubsc, hp, hca]
    | ok body =>
      cases loc <;> cases call <;> simp only [Call.request] at hp <;>
        simp only [Call.run, Outcome.lift, OpResult.httpResp, PostAppSessions, GetAppSession,
          ModAppSession, DeleteAppSession, UpdateEventsSubsc, DeleteEventsSubsc,
          handleUpdateEventResp, getLocationURI, hp, hca] <;>
        repeat (first | split | simp)

/-- Witness of C17: `PostAppSessions` answered 201 with a body that is no AppSessionContext;
the result holds the response, with the status overwritten. -/
theorem httpResp_is_response_witness :
    Responded (exampleWorld (some (exampleResponse 201 none "garbage"), none)) exampleClient
      (.PostAppSessions "asc-0") (exampleResponse 201 none "garbage") ∧
    ((Call.PostAppSessions "asc-0").run
      (exampleWorld (some (exampleResponse 201 none "garbage"), none))
      exampleClient).retVal.httpResp.isSome = true :=
  have h := httpResp_is_response
    (exampleWorld (some (exampleResponse 201 none "garbage"), none)) exampleClient
    (.PostAppSessions "asc-0") (exampleResponse 201 none "garbage") ⟨("POST", _), rfl, rfl⟩
  ⟨⟨("POST", _), rfl, rfl⟩, by rcases h with h | h <;> rw [h] <;> rfl⟩

/-! ## Request construction -/

/-- C18. For every client (root URI `c.rootURI`, current token `c.oAuth2Token`) and every
call, the first external call of the method is `prepareRequest` on the request of the call;
that request carries the current token as its `Authorization` header and has the method and
URL POST `/app-sessions`, GET and PATCH `/app-sessions/{id}`, POST `/app-sessions/{id}/delete`,
PUT and DELETE `/app-sessions/{id}/events-subscription` under the root URI; and for a client
built by `NewPolicyAuthAPIClient` the root URI is protocol, `://`, host, `:`, port and base
path of the configuration. -/
theorem request_construction (w : World S) (c : PolicyAuthAPIClient) (call : Call S) :
    (call.run w c).trace.head? = some (.prepareRequest (call.request c)) ∧
    List.lookup "Authorization" (call.request c).headerParams = some c.oAuth2Token ∧
    ((call.request c).httpMethod, (call.request c).path) =
      (match call with
      | .PostAppSessions _ => ("POST", c.rootURI ++ "/app-sessions")
      | .GetAppSession id => ("GET", c.rootURI ++ "/app-sessions/" ++ id)
      | .ModAppSession id _ => ("PATCH", c.rootURI ++ "/app-sessions/" ++ id)
      | .DeleteAppSession id _ => ("POST", c.rootURI ++ "/app-sessions/" ++ id ++ "/delete")
      | .UpdateEventsSubsc id _ =>
        ("PUT", c.rootURI ++ "/app-sessions/" ++ id ++ "/events-subscription")
      | .DeleteEventsSubsc id =>
        ("DELETE", c.rootURI ++ "/app-sessions/" ++ id ++ "/events-subscription")) ∧
    (∀ (gen : GenericCliConfig → GoError) (tok : Except String String) (cfg : Config),
      NewPolicyAuthAPIClient gen tok cfg = .ok c →
      c.rootURI = cfg.CliPcfCfg.Protocol ++ "://" ++ cfg.CliPcfCfg.Hostname ++ ":" ++
        cfg.CliPcfCfg.Port ++ cfg.CliPcfCfg.BasePath) := by
  refine ⟨?_, ?_, ?_, ?_⟩
  · cases call <;>
      simp only [Call.run, Call.request, Outcome.lift, PostAppSessions, GetAppSession,
        ModAppSession, DeleteAppSession, UpdateEventsSubsc, DeleteEventsSubsc] <;>
      repeat (first | split | simp)
  · cases call <;>
      simp [Call.request, PostAppSessions.request, GetAppSession.request,
        ModAppSession.request, DeleteAppSession.request, UpdateEventsSubsc.request,
        DeleteEventsSubsc.request, List.lookup]
  · cases call <;> rfl
  · intro gen tok cfg hc
    unfold NewPolicyAuthAPIClient at hc
    simp only at hc
    split at hc
    · exact absurd hc (by simp)
    · split at hc
      · split at hc
        · exact absurd hc (by simp)
        · injection hc with hc
          subst hc
          rfl
      · injection hc with hc
        subst hc
        rfl

/-- Witness of C18: the client built from `exampleConfig` deleting the session `42`. -/
theorem request_construction_witness :
    NewPolicyAuthAPIClient (fun _ => none) (.ok "token") exampleConfig = .ok exampleClient ∧
    exampleClient.rootURI = "https://pcf.example:8095/npcf-policyauthorization/v1" ∧
    (((Call.DeleteAppSession "42" none : Call exampleSchema).request exampleClient).httpMethod,
      ((Call.DeleteAppSession "42" none : Call exampleSchema).request exampleClient).path)
      = ("POST", "https://pcf.example:8095/npcf-policyauthorization/v1/app-sessions/42/delete") :=
  have h := request_construction (exampleWorld (none, none)) exampleClient
    (.DeleteAppSession "42" none)
  ⟨rfl, (h.2.2.2 (fun _ => none) (.ok "token") exampleConfig rfl).trans (by decide),
    h.2.2.1.trans (by decide)⟩

/-- C19, on the code. The request `ModAppSession` builds has the Content-Type
`application/json` for every client, session id and update body: it does not carry the
merge-patch media type `application/merge-patch+json`. -/
theorem ModAppSession_content_type (c : PolicyAuthAPIClient) (appSessionID : String)
    (ascUpdateData : S.AppSessionContextUpdateData) :
    List.lookup "Content-Type"
      (ModAppSession.request c appSessionID ascUpdateData : RequestArgs S).headerParams
      = some "application/json" ∧
    List.lookup "Content-Type"
      (ModAppSession.request c appSessionID ascUpdateData : RequestArgs S).headerParams
      ≠ some "application/merge-patch+json" := by
  constructor
  · simp [ModAppSession.request, List.lookup]
  · simp [ModAppSession.request, List.lookup]

/-! ## No retry -/

/-- C25. For every world and every call of a client method, the transport call `callAPI` is
made exactly once when the request is built and never when `prepareRequest` fails, whatever
the outcome of the call (a 401 followed by a token refresh included). -/
theorem callAPI_once (w : World S) (c : PolicyAuthAPIClient) (call : Call S) :
    callCount (call.run w c).trace =
      (match w.prepareRequest (call.request c) with
      | .ok _ => 1
      | .error _ => 0) ∧
    callCount (call.run w c).trace ≤ 1 := by
  have key : callCount (call.run w c).trace =
      (match w.prepareRequest (call.request c) with
      | .ok _ => 1
      | .error _ => 0) := by
    cases call <;>
      simp only [Call.run, Call.request, Outcome.lift, PostAppSessions, GetAppSession,
        ModAppSession, DeleteAppSession, UpdateEventsSubsc, DeleteEventsSubsc,
        handleUpdateEventResp] <;>
      repeat (first | split | simp_all [callCount])
  refine ⟨key, ?_⟩
  rw [key]
  split <;> simp

/-! ## Locations with several `app-sessions` segments -/

theorem isPrefixOf_cons_ne (s0 x : Char) (st r : List Char) (h : x ≠ s0) :
    (s0 :: st).isPrefixOf (x :: r) = false := by
  have h1 : (s0 == x) = false := by
    simp only [beq_eq_false_iff_ne, ne_eq]
    exact fun e => h e.symm
  simp [List.isPrefixOf, h1]

theorem occurrences_skip (s0 : Char) (st B : List Char) :
    ∀ t : List Char, (∀ x ∈ t, x ≠ s0) →
      occurrences (s0 :: st) (t ++ B) = occurrences (s0 :: st) B := by
  intro t
  induction t with
  | nil => intro _; rfl
  | cons x t ih =>
    intro h
    rw [List.cons_append, occurrences_cons,
      isPrefixOf_cons_ne s0 x st (t ++ B) (h x (List.mem_cons_self x t)),
      ih (fun y hy => h y (List.mem_cons_of_mem x hy))]
    simp

theorem occurrences_nil (s0 : Char) (st : List Char) : occurrences (s0 :: st) [] = 0 := rfl

/-- With a separator whose first character does not occur again in it, `strings.Split` yields
one part more than the separator has occurrences. -/
theorem splitAux_length (s0 : Char) (st : List Char) (hst : ∀ x ∈ st, x ≠ s0) :
    ∀ (n : Nat) (L acc : List Char), L.length ≤ n →
      (strings.splitAux (s0 :: st) 0 acc L).length = occurrences (s0 :: st) L + 1 := by
  intro n
  induction n with
  | zero =>
    intro L acc hL
    have : L = [] := List.length_eq_zero.mp (Nat.le_zero.mp hL)
    subst this
    rw [splitAux_nil, occurrences_nil]
    rfl
  | succ n ih =>
    intro L acc hL
    cases L with
    | nil =>
      rw [splitAux_nil, occurrences_nil]
      rfl
    | cons c rest =>
      cases hp : (s0 :: st).isPrefixOf (c :: rest) with
      | true =>
        obtain ⟨B, hB⟩ := List.isPrefixOf_iff_prefix.mp hp
        have hlen : B.length ≤ n := by
          have h1 := congrArg List.length hB
          simp only [List.length_append, List.length_cons] at h1 hL
          omega
        rw [← hB, splitAux_hit, List.length_cons, ih B [] hlen, List.cons_append,
          occurrences_cons]
        have hp2 : (s0 :: st).isPrefixOf (s0 :: (st ++ B)) = true := by
          have := isPrefixOf_self_append (s0 :: st) B
          rwa [List.cons_append] at this
        rw [if_pos hp2, occurrences_skip s0 st B st hst]
        omega
      | false =>
        have hlen : rest.length ≤ n := by
          simp only [List.length_cons] at hL
          omega
        rw [splitAux_miss _ _ _ _ hp, ih rest (c :: acc) hlen, occurrences_cons, hp]
        simp

/-- The number of parts `strings.Split` cuts a Location into, on `app-sessions`. -/
theorem Split_length (L : String) :
    (strings.Split L "app-sessions").length = occurrences "app-sessions".data L.data + 1 := by
  have hsep : "app-sessions".data = 'a' :: "pp-sessions".data := rfl
  have hne : ¬ ("app-sessions".data = []) := by rw [hsep]; exact List.cons_ne_nil _ _
  unfold strings.Split
  rw [if_neg hne, List.length_map, hsep]
  exact splitAux_length 'a' "pp-sessions".data (by decide) L.data.length L.data [] (Nat.le_refl _)

/-- C28. `getLocationURI`: for every response whose Location is readable, the returned string
begins with the client's `locationPrefixURI`, and it is `locationPrefixURI` alone whenever
the Location holds `app-sessions` a number of times different from one, in particular twice
or more. -/
theorem getLocationURI_keeps_locationPrefixURI (c : PolicyAuthAPIClient) (resp : HttpResponse) (L : String)
    (hloc : resp.Location = .ok L) :
    (∃ t : String, (getLocationURI resp c).1 = c.locationPrefixURI ++ t) ∧
    (occurrences "app-sessions".data L.data ≠ 1 →
      (getLocationURI resp c).1 = c.locationPrefixURI) ∧
    (2 ≤ occurrences "app-sessions".data L.data →
      (getLocationURI resp c).1 = c.locationPrefixURI) := by
  have hlen := Split_length L
  have key : occurrences "app-sessions".data L.data ≠ 1 →
      (getLocationURI resp c).1 = c.locationPrefixURI := by
    intro hocc
    unfold getLocationURI
    rw [hloc]
    simp only
    split
    · next a b heq =>
      rw [heq] at hlen
      have h2 : (2 : Nat) = occurrences "app-sessions".data L.data + 1 := hlen
      exfalso
      omega
    · rfl
  refine ⟨?_, key, fun h2 => key (by omega)⟩
  unfold getLocationURI
  rw [hloc]
  simp only
  split
  · next a b heq => exact ⟨b, rfl⟩
  · exact ⟨"", by simp⟩

/-- Witness of C28: a session id that itself holds `app-sessions`. -/
theorem getLocationURI_keeps_locationPrefixURI_witness :
    (exampleResponse 201 (some "https://pcf.example/v1/app-sessions/my-app-sessions-1")
      "asc-1").Location = .ok "https://pcf.example/v1/app-sessions/my-app-sessions-1" ∧
    occurrences "app-sessions".data
      "https://pcf.example/v1/app-sessions/my-app-sessions-1".data = 2 ∧
    (getLocationURI
      (exampleResponse 201 (some "https://pcf.example/v1/app-sessions/my-app-sessions-1")
        "asc-1") exampleClient).1
      = "https://af.example/af/v1/policy-authorization/app-sessions" :=
  ⟨rfl, by decide,
    (getLocationURI_keeps_locationPrefixURI exampleClient
      (exampleResponse 201 (some "https://pcf.example/v1/app-sessions/my-app-sessions-1")
        "asc-1")
      "https://pcf.example/v1/app-sessions/my-app-sessions-1" rfl).2.1 (by decide)⟩

/-! ## The status code after `getLocationURI` -/

/-- C29. `getLocationURI`: when the Location header cannot be read, the returned string is
empty and the response gets the status code 500, nothing else in it changes; when it can be
read, the response is left unchanged. Consequently `PostAppSessions` answered 201 with a body
that decodes as the AppSessionContext `v` and no readable Location returns a nil error,
`appSessCtx = v`, an empty `locationURI` and the reported status 500. -/
theorem getLocationURI_status (w : World S) (c : PolicyAuthAPIClient) (resp : HttpResponse) :
    (∀ e, resp.Location = .error e →
      getLocationURI resp c = ("", { resp with StatusCode := 500 })) ∧
    (∀ L, resp.Location = .ok L → (getLocationURI resp c).2 = resp) ∧
    (∀ (a v : S.AppSessionContext) (body e : String),
      Received w c (.PostAppSessions a) resp body →
      resp.StatusCode = 201 →
      w.unmarshalAppSessionContext body = (v, none) →
      resp.Location = .error e →
      (PostAppSessions w c a).err = none ∧
      (PostAppSessions w c a).retVal.appSessCtx = some v ∧
      (PostAppSessions w c a).retVal.locationURI = "" ∧
      (PostAppSessions w c a).retVal.httpResp.map (fun h => h.StatusCode) = some 500) := by
  refine ⟨?_, ?_, ?_⟩
  · intro e he
    simp [getLocationURI, he]
  · intro L hL
    unfold getLocationURI
    rw [hL]
    simp only
    split <;> rfl
  · intro a v body e ⟨r, hp, hcall, hbody⟩ hstatus hdec he
    simp only [Call.request] at hp
    simp [PostAppSessions, getLocationURI, hp, hcall, hbody, hstatus, hdec, he]

/-- Witness of C29: `PostAppSessions` answered 201 with the body `asc-1` and no Location
header. -/
theorem getLocationURI_status_witness :
    Received (exampleWorld (some (exampleResponse 201 none "asc-1"), none)) exampleClient
      (.PostAppSessions "asc-0") (exampleResponse 201 none "asc-1") "asc-1" ∧
    (PostAppSessions (exampleWorld (some (exampleResponse 201 none "asc-1"), none))
      exampleClient "asc-0").err = none ∧
    (PostAppSessions (exampleWorld (some (exampleResponse 201 none "asc-1"), none))
      exampleClient "asc-0").retVal.httpResp.map (fun h => h.StatusCode) = some 500 :=
  have h := (getLocationURI_status
    (exampleWorld (some (exampleResponse 201 none "asc-1"), none)) exampleClient
    (exampleResponse 201 none "asc-1")).2.2 "asc-0" "asc-1" "asc-1"
    "http: no Location header in response" ⟨("POST", _), rfl, rfl, rfl⟩ rfl rfl rfl
  ⟨⟨("POST", _), rfl, rfl, rfl⟩, h.1, h.2.2.2⟩

/-! ## What a failed decoding of a success body leaves in the result -/

/-- C30. When the body of a success status fails to decode with the error `e`:
`PostAppSessions` (201), `GetAppSession`, `ModAppSession` and `DeleteAppSession` (200) return
`e` together with a non-nil `appSessCtx`, whereas `handleUpdateEventResp` (200, 201) returns
`e` with `eventSubscReq` and `evsNotif` both nil. -/
theorem decode_failure_leftovers (w : World S) (c : PolicyAuthAPIClient) (resp : HttpResponse)
    (body e : String) :
    (∀ a, Received w c (.PostAppSessions a) resp body → resp.StatusCode = 201 →
      (w.unmarshalAppSessionContext body).2 = some e →
      (PostAppSessions w c a).retVal.appSessCtx ≠ none ∧ (PostAppSessions w c a).err = some e) ∧
    (∀ id, Received w c (.GetAppSession id) resp body → resp.StatusCode = 200 →
      (w.unmarshalAppSessionContextPtr body).2 = some e →
      (GetAppSession w c id).retVal.appSessCtx ≠ none ∧ (GetAppSession w c id).err = some e) ∧
    (∀ id u, Received w c (.ModAppSession id u) resp body → resp.StatusCode = 200 →
      (w.unmarshalAppSessionContextPtr body).2 = some e →
      (ModAppSession w c id u).retVal.appSessCtx ≠ none ∧
      (ModAppSession w c id u).err = some e) ∧
    (∀ id ev, Received w c (.DeleteAppSession id ev) resp body → resp.StatusCode = 200 →
      (w.unmarshalAppSessionContextPtr body).2 = some e →
      (DeleteAppSession w c id ev).retVal.appSessCtx ≠ none ∧
      (DeleteAppSession w c id ev).err = some e) ∧
    ((resp.StatusCode = 200 ∨ resp.StatusCode = 201) →
      (w.unmarshalEventsSubscReqData body).2 = some e →
      (handleUpdateEventResp w body resp c).retVal.eventSubscReq = none ∧
      (handleUpdateEventResp w body resp c).retVal.evsNotif = none ∧
      (handleUpdateEventResp w body resp c).err = some e) := by
  have hptr : (w.unmarshalAppSessionContextPtr body).2 = some e →
      (w.unmarshalAppSessionContextPtr body).1 ≠ none := by
    unfold World.unmarshalAppSessionContextPtr
    split <;> simp
  refine ⟨?_, ?_, ?_, ?_, ?_⟩
  · intro a ⟨r, hp, hcall, hbody⟩ hs hd
    simp only [Call.request] at hp
    simp [PostAppSessions, hp, hcall, hbody, hs, hd]
  · intro id ⟨r, hp, hcall, hbody⟩ hs hd
    simp only [Call.request] at hp
    have := hptr hd
    simp [GetAppSession, hp, hcall, hbody, hs, hd, this]
  · intro id u ⟨r, hp, hcall, hbody⟩ hs hd
    simp only [Call.request] at hp
    have := hptr hd
    simp [ModAppSession, hp, hcall, hbody, hs, hd, this]
  · intro id ev ⟨r, hp, hcall, hbody⟩ hs hd
    simp only [Call.request] at hp
    have := hptr hd
    simp [DeleteAppSession, hp, hcall, hbody, hs, hd, this]
  · intro hs hd
    simp [handleUpdateEventResp, hs, hd]

/-- Witness of C30: `GetAppSession` answered 200 with a body that is no AppSessionContext. -/
theorem decode_failure_leftovers_witness :
    Received (exampleWorld (some (exampleResponse 200 none "garbage"), none)) exampleClient
      (.GetAppSession "42") (exampleResponse 200 none "garbage") "garbage" ∧
    (GetAppSession (exampleWorld (some (exampleResponse 200 none "garbage"), none))
      exampleClient "42").retVal.appSessCtx ≠ none ∧
    (GetAppSession (exampleWorld (some (exampleResponse 200 none "garbage"), none))
      exampleClient "42").err = some "invalid character" :=
  ⟨⟨("GET", _), rfl, rfl, rfl⟩,
    (decode_failure_leftovers
      (exampleWorld (some (exampleResponse 200 none "garbage"), none)) exampleClient
      (exampleResponse 200 none "garbage") "garbage" "invalid character").2.1 "42"
      ⟨("GET", _), rfl, rfl, rfl⟩ rfl rfl⟩

/-! ## The inbound handler -/

/-- C24. `PolicyAuthEventSubsc`, once the request is decoded and a client is at hand, with
`o` the outcome of `UpdateEventsSubsc`: when `o` has a non-nil error, the status written is
the status of the response in the result if there is one, and 500 if there is none; when the
error is nil and the payload serialises, the status written is the status of the response in
the result, and when neither `eventSubscReq` nor `evsNotif` is populated and `probDetails`
is, the body written is the serialised `probDetails`. -/
theorem PolicyAuthEventSubsc_status (w : World S) (k : Codec S) (r : HandlerRequest S)
    (afCtx : Context) (apiClient : PolicyAuthAPIClient)
    (o : Outcome S (EventSubscResponse S))
    (hctx : r.afCtx = some (some afCtx))
    (hdec : r.decode.2 = none)
    (hcli : afCtx.policyAuthAPIClient = some apiClient)
    (ho : UpdateEventsSubsc w apiClient r.appSessionID
      (some (k.setNotifURI r.decode.1 afCtx.NotifURI)) = o) :
    (∀ e h, o.err = some e → o.retVal.httpResp = some h →
      (PolicyAuthEventSubsc w k r).map statusWritten = some (some h.StatusCode)) ∧
    (∀ e, o.err = some e → o.retVal.httpResp = none →
      (PolicyAuthEventSubsc w k r).map statusWritten = some (some 500)) ∧
    (∀ h, o.err = none → o.retVal.httpResp = some h →
      (∀ v, ∃ b, k.marshalEventsSubscReqData v = .ok b) →
      (∀ v, ∃ b, k.marshalEventsNotification v = .ok b) →
      (∀ v, ∃ b, k.marshalProblemDetails v = .ok b) →
      (PolicyAuthEventSubsc w k r).map statusWritten = some (some h.StatusCode)) ∧
    (∀ h pd b, o.err = none → o.retVal.httpResp = some h →
      o.retVal.eventSubscReq = none → o.retVal.evsNotif = none →
      o.retVal.probDetails = some pd → k.marshalProblemDetails pd = .ok b →
      (PolicyAuthEventSubsc w k r).map statusWritten = some (some h.StatusCode) ∧
      (PolicyAuthEventSubsc w k r).map bodyWritten = some (some b)) := by
  obtain ⟨⟨hr, req, notif, pd, loc⟩, err, tr, cl⟩ := o
  refine ⟨?_, ?_, ?_, ?_⟩
  · intro e h he hh
    simp only at he hh
    subst he; subst hh
    simp [PolicyAuthEventSubsc, hctx, hdec, hcli, ho, statusWritten]
  · intro e he hh
    simp only at he hh
    subst he; subst hh
    simp [PolicyAuthEventSubsc, hctx, hdec, hcli, ho, statusWritten]
  · intro h he hh hm1 hm2 hm3
    simp only at he hh
    subst he; subst hh
    simp only [PolicyAuthEventSubsc, hctx, hdec, hcli, ho, handleEventSubscResp]
    cases req with
    | some v =>
      obtain ⟨b, hb⟩ := hm1 v
      simp only [hb]
      split <;> simp [statusWritten]
    | none =>
      cases notif with
      | some n =>
        obtain ⟨b, hb⟩ := hm2 n
        simp only [hb]
        split <;> simp [statusWritten]
      | none =>
        cases pd with
        | some p =>
          obtain ⟨b, hb⟩ := hm3 p
          simp only [hb]
          split <;> simp [statusWritten]
        | none => by_cases h201 : h.StatusCode = 201 <;> simp [h201, statusWritten]
  · intro h p b he hh hreq hnotif hpd hm
    simp only at he hh hreq hnotif hpd
    subst he; subst hh; subst hreq; subst hnotif; subst hpd
    simp only [PolicyAuthEventSubsc, hctx, hdec, hcli, ho, handleEventSubscResp, hm]
    split <;> simp [statusWritten, bodyWritten]

/-- Witness of C24: the PCF answers the subscription with 403 and a ProblemDetails body; the
handler writes 403 and that body. -/
theorem PolicyAuthEventSubsc_status_witness :
    (PolicyAuthEventSubsc (exampleWorld (some (exampleResponse 403 none "problem-403"), none))
      exampleCodec exampleHandlerRequest).map statusWritten = some (some 403) ∧
    (PolicyAuthEventSubsc (exampleWorld (some (exampleResponse 403 none "problem-403"), none))
      exampleCodec exampleHandlerRequest).map bodyWritten = some (some "problem-403") :=
  (PolicyAuthEventSubsc_status
    (exampleWorld (some (exampleResponse 403 none "problem-403"), none)) exampleCodec
    exampleHandlerRequest { NotifURI := "", policyAuthAPIClient := some exampleClient }
    exampleClient _ rfl rfl rfl rfl).2.2.2
    (exampleResponse 403 none "problem-403") "problem-403" "problem-403" rfl rfl rfl rfl rfl
    rfl

end AF

/-! # Theorems on the NEF client -/

namespace NEF

open AF

variable {S : Schema}

/-- C20. `PolicyAuthorizationCreate`: when the request body is marshalled, the request is
built, the PCF answers 201 and the body read from the response decodes as the
AppSessionContext `v`, the returned AppSessionID is the value of the Location header, the
returned `PcfPolicyResponse` has `ResponseCode` 201, `Asc = v` and a nil `Pd`, and the returned
error is nil. -/
theorem PolicyAuthorizationCreate_created (w : World S) (pcf : PcfClient)
    (body v : S.AppSessionContext) (postbody resbody : String) (req : S.Request)
    (res : Response)
    (hm : w.marshalAppSessionContext body = .ok postbody)
    (hp : w.prepareRequest ⟨pcf.RootURI ++ pcf.ResourceURI, "POST", some postbody,
      [("Content-Type", contentType), ("User-Agent", pcf.UserAgent)]⟩ = .ok req)
    (hdo : w.Do req = .ok res)
    (hbody : res.Body = .ok resbody)
    (hstatus : res.StatusCode = 201)
    (hdec : w.unmarshalAppSessionContext resbody = (v, none)) :
    (PolicyAuthorizationCreate w pcf body).appSessionID = res.Location ∧
    (PolicyAuthorizationCreate w pcf body).pcfPr.ResponseCode = 201 ∧
    (PolicyAuthorizationCreate w pcf body).pcfPr.Asc = some v ∧
    (PolicyAuthorizationCreate w pcf body).pcfPr.Pd = none ∧
    (PolicyAuthorizationCreate w pcf body).err = none := by
  simp [PolicyAuthorizationCreate, hm, hp, hdo, hbody, hstatus, hdec, uint16]

/-- Witness of C20: the PCF answers 201 with the Location
`https://pcf.example:8095/npcf-policyauthorization/v1/app-sessions/42`. -/
theorem PolicyAuthorizationCreate_created_witness :
    (PolicyAuthorizationCreate
      (exampleWorld (.ok ⟨201,
        "https://pcf.example:8095/npcf-policyauthorization/v1/app-sessions/42",
        "application/json", .ok "asc-1"⟩)) examplePcfClient "asc-0").appSessionID
      = "https://pcf.example:8095/npcf-policyauthorization/v1/app-sessions/42" ∧
    (PolicyAuthorizationCreate
      (exampleWorld (.ok ⟨201,
        "https://pcf.example:8095/npcf-policyauthorization/v1/app-sessions/42",
        "application/json", .ok "asc-1"⟩)) examplePcfClient "asc-0").pcfPr.ResponseCode
      = 201 :=
  have h := PolicyAuthorizationCreate_created
    (exampleWorld (.ok ⟨201,
      "https://pcf.example:8095/npcf-policyauthorization/v1/app-sessions/42",
      "application/json", .ok "asc-1"⟩)) examplePcfClient "asc-0" "asc-1" "asc-0" "asc-1"
    ("POST", "https://pcf.example:8095/npcf-policyauthorization/v1/app-sessions/")
    ⟨201, "https://pcf.example:8095/npcf-policyauthorization/v1/app-sessions/42",
      "application/json", .ok "asc-1"⟩ rfl rfl rfl rfl rfl rfl
  ⟨h.1, h.2.1⟩

/-! ## ProblemDetails on the NEF side -/

/-- `PolicyAuthorizationDelete` on a status other than 200 and 204 with the Content-Type
`application/problem+json`: whatever the body of the response, the method decodes the empty
text; when that fails with `e` it returns `e` and the zero `PcfPolicyResponse`. -/
theorem PolicyAuthorizationDelete_decodes_empty (w : World S) (pcf : PcfClient)
    (appSessionID e : String) (req : S.Request) (res : Response)
    (hp : w.prepareRequest ⟨pcf.RootURI ++ pcf.ResourceURI ++ appSessionID ++ "/delete", "POST",
      none, [("Content-Type", contentType), ("User-Agent", pcf.UserAgent)]⟩ = .ok req)
    (hdo : w.Do req = .ok res)
    (h204 : res.StatusCode ≠ 204) (h200 : res.StatusCode ≠ 200)
    (hct : res.ContentType = pdContentType)
    (hempty : (w.unmarshalProblemDetails "").2 = some e) :
    PolicyAuthorizationDelete w pcf appSessionID = ⟨{}, some e⟩ := by
  simp [PolicyAuthorizationDelete, hp, hdo, h204, h200, hct, hempty]

/-- C21, at the failing input. `PolicyAuthorizationDelete` answered 404 with the Content-Type
`application/problem+json` and the body `problem-404`, which decodes as ProblemDetails: the
returned `Pd` is nil and `ResponseCode` is 0, with the error of decoding the empty text (the
body is never read). On the same answer `PolicyAuthorizationGet` returns `Pd` equal to the
decoded body and `ResponseCode` 404. -/
theorem PolicyAuthorizationDelete_problem_body_not_read :
    (exampleWorld (.ok ⟨404, "", "application/problem+json",
      .ok "problem-404"⟩)).unmarshalProblemDetails "problem-404" = ("problem-404", none) ∧
    (PolicyAuthorizationDelete (exampleWorld (.ok ⟨404, "", "application/problem+json",
      .ok "problem-404"⟩)) examplePcfClient "42").pcfPr.Pd = none ∧
    (PolicyAuthorizationDelete (exampleWorld (.ok ⟨404, "", "application/problem+json",
      .ok "problem-404"⟩)) examplePcfClient "42").pcfPr.ResponseCode = 0 ∧
    (PolicyAuthorizationDelete (exampleWorld (.ok ⟨404, "", "application/problem+json",
      .ok "problem-404"⟩)) examplePcfClient "42").err = some "invalid character" ∧
    (PolicyAuthorizationGet (exampleWorld (.ok ⟨404, "", "application/problem+json",
      .ok "problem-404"⟩)) examplePcfClient "42").pcfPr.Pd = some "problem-404" ∧
    (PolicyAuthorizationGet (exampleWorld (.ok ⟨404, "", "application/problem+json",
      .ok "problem-404"⟩)) examplePcfClient "42").pcfPr.ResponseCode = 404 := by
  refine ⟨rfl, rfl, rfl, rfl, rfl, ?_⟩
  decide

/-- `PolicyAuthorizationCreate` on a status other than 201 whose body was read: the returned
error is nil exactly when the Content-Type is `application/problem+json` and the body fails
to decode as ProblemDetails; otherwise it is the error `failed post`. -/
theorem PolicyAuthorizationCreate_error (w : World S) (pcf : PcfClient)
    (body : S.AppSessionContext) (postbody resbody : String) (req : S.Request)
    (res : Response)
    (hm : w.marshalAppSessionContext body = .ok postbody)
    (hp : w.prepareRequest ⟨pcf.RootURI ++ pcf.ResourceURI, "POST", some postbody,
      [("Content-Type", contentType), ("User-Agent", pcf.UserAgent)]⟩ = .ok req)
    (hdo : w.Do req = .ok res)
    (hbody : res.Body = .ok resbody)
    (hstatus : res.StatusCode ≠ 201) :
    (PolicyAuthorizationCreate w pcf body).err =
      if res.ContentType = pdContentType ∧ (w.unmarshalProblemDetails resbody).2 ≠ none
      then none else some "failed post" := by
  by_cases hct : res.ContentType = pdContentType
  · rcases hd : (w.unmarshalProblemDetails resbody).2 with _ | e
    · simp [PolicyAuthorizationCreate, hm, hp, hdo, hbody, hstatus, hct, hd]
    · simp [PolicyAuthorizationCreate, hm, hp, hdo, hbody, hstatus, hct, hd]
  · simp [PolicyAuthorizationCreate, hm, hp, hdo, hbody, hstatus, hct]

/-- C22, at the failing input. `PolicyAuthorizationCreate` answered 400 with the Content-Type
`application/problem+json` and the body `garbage`, which fails to decode as ProblemDetails:
the returned error is nil (with a zero `PcfPolicyResponse`). On the same answer
`PolicyAuthorizationUpdate` returns the decode failure as its error. -/
theorem PolicyAuthorizationCreate_decode_failure_nil_error :
    (exampleWorld (.ok ⟨400, "", "application/problem+json",
      .ok "garbage"⟩)).unmarshalProblemDetails "garbage" = ("", some "invalid character") ∧
    (PolicyAuthorizationCreate (exampleWorld (.ok ⟨400, "", "application/problem+json",
      .ok "garbage"⟩)) examplePcfClient "asc-0").err = none ∧
    (PolicyAuthorizationCreate (exampleWorld (.ok ⟨400, "", "application/problem+json",
      .ok "garbage"⟩)) examplePcfClient "asc-0").pcfPr.ResponseCode = 0 ∧
    (PolicyAuthorizationCreate (exampleWorld (.ok ⟨400, "", "application/problem+json",
      .ok "garbage"⟩)) examplePcfClient "asc-0").pcfPr.Pd = none ∧
    (PolicyAuthorizationUpdate (exampleWorld (.ok ⟨400, "", "application/problem+json",
      .ok "garbage"⟩)) examplePcfClient "upd-0" "42").err = some "invalid character" :=
  ⟨rfl, rfl, rfl, rfl, rfl⟩

/-! ## The response code on the NEF side -/

theorem uint16_of_status (n : Int) (h0 : 0 ≤ n) (h1 : n ≤ 65535) : (uint16 n : Int) = n := by
  unfold uint16
  rw [Int.toNat_of_nonneg (Int.emod_nonneg n (by decide))]
  exact Int.emod_eq_of_lt h0 (by omega)

/-- C23, as amended. When a response was received and its body read,
`PolicyAuthorizationCreate`, `PolicyAuthorizationUpdate` and `PolicyAuthorizationGet` return
`ResponseCode = uint16(status)` if the decoding they apply to the body does not fail, and the
zero `ResponseCode` if it fails; `PolicyAuthorizationDelete` returns
`ResponseCode = uint16(status)` on 204, on 200 once the body was read, and on every other
status whose Content-Type is not `application/problem+json`; and `uint16(status)` is the
status itself for every status in 0..65535. -/
theorem ResponseCode_mirrors_status (w : World S) (pcf : PcfClient) (req : S.Request)
    (res : Response) (hdo : w.Do req = .ok res) :
    (∀ body postbody resbody,
      w.marshalAppSessionContext body = .ok postbody →
      w.prepareRequest ⟨pcf.RootURI ++ pcf.ResourceURI, "POST", some postbody,
        [("Content-Type", contentType), ("User-Agent", pcf.UserAgent)]⟩ = .ok req →
      res.Body = .ok resbody →
      (PolicyAuthorizationCreate w pcf body).pcfPr.ResponseCode =
        if decodeError w 201 res resbody = none then uint16 res.StatusCode else 0) ∧
    (∀ body id patchbody resbody,
      w.marshalAppSessionContextUpdateData body = .ok patchbody →
      w.prepareRequest ⟨pcf.RootURI ++ pcf.ResourceURI ++ id, "PATCH", some patchbody,
        [("Content-Type", "application/merge-patch+json"), ("User-Agent", pcf.UserAgent)]⟩
        = .ok req →
      res.Body = .ok resbody →
      (PolicyAuthorizationUpdate w pcf body id).pcfPr.ResponseCode =
        if decodeError w 200 res resbody = none then uint16 res.StatusCode else 0) ∧
    (∀ id resbody,
      w.prepareRequest ⟨pcf.RootURI ++ pcf.ResourceURI ++ id, "GET", none,
        [("Content-Type", contentType), ("User-Agent", pcf.UserAgent)]⟩ = .ok req →
      res.Body = .ok resbody →
      (PolicyAuthorizationGet w pcf id).pcfPr.ResponseCode =
        if decodeError w 200 res resbody = none then uint16 res.StatusCode else 0) ∧
    (∀ id,
      w.prepareRequest ⟨pcf.RootURI ++ pcf.ResourceURI ++ id ++ "/delete", "POST", none,
        [("Content-Type", contentType), ("User-Agent", pcf.UserAgent)]⟩ = .ok req →
      (res.StatusCode = 204 ∨ (res.StatusCode = 200 ∧ ∃ resbody, res.Body = .ok resbody) ∨
        (res.StatusCode ≠ 204 ∧ res.StatusCode ≠ 200 ∧ res.ContentType ≠ pdContentType)) →
      (PolicyAuthorizationDelete w pcf id).pcfPr.ResponseCode = uint16 res.StatusCode) ∧
    (0 ≤ res.StatusCode → res.StatusCode ≤ 65535 →
      (uint16 res.StatusCode : Int) = res.StatusCode) := by
  refine ⟨?_, ?_, ?_, ?_, uint16_of_status res.StatusCode⟩
  · intro body postbody resbody hm hp hbody
    by_cases hs : res.StatusCode = 201
    · rcases hd : (w.unmarshalAppSessionContext resbody).2 with _ | e <;>
        simp [PolicyAuthorizationCreate, decodeError, hm, hp, hdo, hbody, hs, hd]
    · by_cases hct : res.ContentType = pdContentType
      · rcases hd : (w.unmarshalProblemDetails resbody).2 with _ | e <;>
          simp [PolicyAuthorizationCreate, decodeError, hm, hp, hdo, hbody, hs, hct, hd]
      · simp [PolicyAuthorizationCreate, decodeError, hm, hp, hdo, hbody, hs, hct]
  · intro body id patchbody resbody hm hp hbody
    by_cases hs : res.StatusCode = 200
    · rcases hd : (w.unmarshalAppSessionContext resbody).2 with _ | e <;>
        simp [PolicyAuthorizationUpdate, decodeError, hm, hp, hdo, hbody, hs, hd]
    · by_cases hct : res.ContentType = pdContentType
      · rcases hd : (w.unmarshalProblemDetails resbody).2 with _ | e <;>
          simp [PolicyAuthorizationUpdate, decodeError, hm, hp, hdo, hbody, hs, hct, hd]
      · simp [PolicyAuthorizationUpdate, decodeError, hm, hp, hdo, hbody, hs, hct]
  · intro id resbody hp hbody
    by_cases hs : res.StatusCode = 200
    · rcases hd : (w.unmarshalAppSessionContext resbody).2 with _ | e <;>
        simp [PolicyAuthorizationGet, decodeError, hp, hdo, hbody, hs, hd]
    · by_cases hct : res.ContentType = pdContentType
      · rcases hd : (w.unmarshalProblemDetails resbody).2 with _ | e <;>
          simp [PolicyAuthorizationGet, decodeError, hp, hdo, hbody, hs, hct, hd]
      · simp [PolicyAuthorizationGet, decodeError, hp, hdo, hbody, hs, hct]
  · intro id hp hcase
    rcases hcase with h204 | ⟨h200, resbody, hbody⟩ | ⟨h204, h200, hct⟩
    · simp [PolicyAuthorizationDelete, hp, hdo, h204]
    · simp [PolicyAuthorizationDelete, hp, hdo, h200, hbody]
    · simp [PolicyAuthorizationDelete, hp, hdo, h204, h200, hct]

/-- Witness of C23 (amended): `PolicyAuthorizationGet` answered 404 with a ProblemDetails
body. -/
theorem ResponseCode_mirrors_status_witness :
    (exampleWorld (.ok ⟨404, "", "application/problem+json", .ok "problem-404"⟩)).Do
      ("GET", "https://pcf.example:8095/npcf-policyauthorization/v1/app-sessions/42")
      = .ok ⟨404, "", "application/problem+json", .ok "problem-404"⟩ ∧
    (PolicyAuthorizationGet
      (exampleWorld (.ok ⟨404, "", "application/problem+json", .ok "problem-404"⟩))
      examplePcfClient "42").pcfPr.ResponseCode = 404 :=
  have h := (ResponseCode_mirrors_status
    (exampleWorld (.ok ⟨404, "", "application/problem+json", .ok "problem-404"⟩))
    examplePcfClient
    ("GET", "https://pcf.example:8095/npcf-policyauthorization/v1/app-sessions/42")
    ⟨404, "", "application/problem+json", .ok "problem-404"⟩ rfl).2.2.1 "42" "problem-404"
    rfl rfl
  ⟨rfl, h.trans (by decide)⟩

/-- Counterexample to C23 as stated: `PolicyAuthorizationCreate` answered 201 with a body
that fails to decode returns the `ResponseCode` 0, not 201. -/
theorem ResponseCode_zero_after_decode_failure :
    ¬ ∀ (w : World exampleSchema) (pcf : PcfClient) (body : exampleSchema.AppSessionContext)
        (postbody resbody : String) (req : exampleSchema.Request) (res : Response),
        w.marshalAppSessionContext body = .ok postbody →
        w.prepareRequest ⟨pcf.RootURI ++ pcf.ResourceURI, "POST", some postbody,
          [("Content-Type", contentType), ("User-Agent", pcf.UserAgent)]⟩ = .ok req →
        w.Do req = .ok res →
        res.Body = .ok resbody →
        0 ≤ res.StatusCode → res.StatusCode ≤ 65535 →
        ((PolicyAuthorizationCreate w pcf body).pcfPr.ResponseCode : Int) = res.StatusCode := by
  intro h
  have h1 := h (exampleWorld (.ok ⟨201, "", "application/json", .ok "garbage"⟩))
    examplePcfClient "asc-0" "asc-0" "garbage"
    ("POST", "https://pcf.example:8095/npcf-policyauthorization/v1/app-sessions/")
    ⟨201, "", "application/json", .ok "garbage"⟩ rfl rfl rfl rfl (by decide) (by decide)
  revert h1
  decide

end NEF
